import Mathlib

/-!
# Verification of the casino wagering bot

Shallow embedding, in Lean 4, of the money-handling core of the Telegram
casino bot (sources: `main.py`, `database.py`, `temp_repo/blackjack.py`).

Conventions:
* Monetary amounts and timestamps are rationals (`Rat`); Python uses floats,
  but every amount appearing in the verified scenarios is an exact multiple
  of 1/2, on which Python float arithmetic is exact.
* Python dict entries that may be absent (`challenge.get('x')`) are
  `Option`s; an absent key and a `None` value are both `none` (both are
  falsy in the source's truth tests).
* Card-game hand values are `Nat`s, as in the source.
-/

-- ============================================================
-- blackjack.py: Cards, Deck, Hand
-- ============================================================

/-- Card ranks, as the keys of `RANKS` in blackjack.py. -/
inductive Rank where
  | r2 | r3 | r4 | r5 | r6 | r7 | r8 | r9 | rT | rJ | rQ | rK | rA
  deriving DecidableEq, Repr

/-- The `RANKS` mapping of blackjack.py: face cards are 10, ace is 11. -/
def Rank.pts : Rank → Nat
  | .r2 => 2 | .r3 => 3 | .r4 => 4 | .r5 => 5 | .r6 => 6 | .r7 => 7
  | .r8 => 8 | .r9 => 9 | .rT => 10 | .rJ => 10 | .rQ => 10 | .rK => 10
  | .rA => 11

/-- Suits (`SUITS` in blackjack.py); suits never affect a hand value. -/
inductive Suit where
  | H | D | C | S
  deriving DecidableEq, Repr

/-- `Card` of blackjack.py: a rank and a suit; `self.value = RANKS[rank]`. -/
structure Card where
  rank : Rank
  suit : Suit
  deriving DecidableEq, Repr

def Card.value (c : Card) : Nat := c.rank.pts

/-- Sum of `card.value` over a card list (`sum(card.value for card in self.cards)`). -/
def rawTotal (cards : List Card) : Nat := (cards.map Card.value).sum

/-- `num_aces = sum(1 for card in self.cards if card.rank == 'A')`. -/
def numAces (cards : List Card) : Nat := cards.countP (fun c => c.rank = Rank.rA)

/-- The while-loop of `Hand._calculate_value`:
`while value > 21 and num_aces > 0: value -= 10; num_aces -= 1`.
Returns the final `(value, num_aces)` pair. -/
def adjustAces : Nat → Nat → Nat × Nat
  | v, 0 => (v, 0)
  | v, n + 1 => if 21 < v then adjustAces (v - 10) n else (v, n + 1)

/-- `Hand._calculate_value` of blackjack.py: the best score and the soft flag.
Note the source computes `is_soft` as
`num_aces > 0 and value <= 21 and initial_value_check > value`,
where `initial_value_check` is the raw sum re-computed after the loop. -/
def calculateValue (cards : List Card) : Nat × Bool :=
  let initial := rawTotal cards
  let res := adjustAces initial (numAces cards)
  let value := res.1
  let acesLeft := res.2
  (value, decide (0 < acesLeft) && decide (value ≤ 21) && decide (value < initial))

/-- `Hand` of blackjack.py. `value` and `soft` are recomputed from the cards
on every `add_card`, so we model them as derived functions of `cards`. -/
structure Hand where
  cards : List Card
  is_split : Bool := false
  deriving DecidableEq, Repr

def Hand.value (h : Hand) : Nat := (calculateValue h.cards).1

def Hand.soft (h : Hand) : Bool := (calculateValue h.cards).2

/-- `Hand.add_card`. -/
def Hand.addCard (h : Hand) (c : Card) : Hand := { h with cards := h.cards ++ [c] }

/-- `Hand.is_blackjack`: natural 21 on two cards, not a split hand. -/
def Hand.isBlackjack (h : Hand) : Bool :=
  h.cards.length = 2 && h.value = 21 && !h.is_split

/-- `Hand.is_busted`. -/
def Hand.isBusted (h : Hand) : Bool := 21 < h.value

-- Spec-side notions for claim C10 --

/-- The minimal card value: an ace counted as 1, all else as `RANKS`. -/
def minCardValue (c : Card) : Nat := if c.rank = Rank.rA then 1 else c.value

/-- The minimal hand total: every ace counted as 1. -/
def minTotal (cards : List Card) : Nat := (cards.map minCardValue).sum

/-- All totals obtainable by counting each ace as either 1 or 11:
counting `k` of the `numAces` aces as 11 gives `minTotal + 10 * k`. -/
def aceTotals (cards : List Card) : List Nat :=
  (List.range (numAces cards + 1)).map (fun k => minTotal cards + 10 * k)

-- Lemmas about the ace-adjustment loop --

theorem rawTotal_eq_minTotal (cards : List Card) :
    rawTotal cards = minTotal cards + 10 * numAces cards := by
  induction cards with
  | nil => simp [rawTotal, minTotal, numAces]
  | cons c cs ih =>
    by_cases h : c.rank = Rank.rA
    · simp [rawTotal, minTotal, numAces, minCardValue, List.countP_cons, h,
        Card.value, Rank.pts] at *
      omega
    · simp [rawTotal, minTotal, numAces, minCardValue, List.countP_cons, h] at *
      omega

theorem adjustAces_achieves (n m : Nat) :
    ∃ k ≤ n, (adjustAces (m + 10 * n) n).1 = m + 10 * k := by
  induction n generalizing m with
  | zero => exact ⟨0, le_refl 0, rfl⟩
  | succ n ih =>
    rw [adjustAces]
    by_cases h : 21 < m + 10 * (n + 1)
    · simp only [if_pos h]
      have : m + 10 * (n + 1) - 10 = m + 10 * n := by omega
      rw [this]
      obtain ⟨k, hk, hval⟩ := ih m
      exact ⟨k, Nat.le_succ_of_le hk, hval⟩
    · simp only [if_neg h]
      exact ⟨n + 1, le_refl _, rfl⟩

theorem adjustAces_le21 (n m : Nat) (hm : m ≤ 21) :
    (adjustAces (m + 10 * n) n).1 ≤ 21 := by
  induction n generalizing m with
  | zero => simpa [adjustAces] using hm
  | succ n ih =>
    rw [adjustAces]
    by_cases h : 21 < m + 10 * (n + 1)
    · simp only [if_pos h]
      have : m + 10 * (n + 1) - 10 = m + 10 * n := by omega
      rw [this]; exact ih m hm
    · simp only [if_neg h]; omega

theorem adjustAces_maximal (n : Nat) : ∀ m k, k ≤ n → m + 10 * k ≤ 21 →
    m + 10 * k ≤ (adjustAces (m + 10 * n) n).1 := by
  induction n with
  | zero =>
    intro m k hk hk21
    have : k = 0 := Nat.le_zero.mp hk
    subst this; simp only [adjustAces]; omega
  | succ n ih =>
    intro m k hk hk21
    rw [adjustAces]
    by_cases h : 21 < m + 10 * (n + 1)
    · simp only [if_pos h]
      have heq : m + 10 * (n + 1) - 10 = m + 10 * n := by omega
      rw [heq]
      have hk' : k ≤ n := by omega
      exact ih m k hk' hk21
    · simp only [if_neg h]
      omega

theorem adjustAces_stuck (n m : Nat) (hm : 21 < m) :
    (adjustAces (m + 10 * n) n).1 = m := by
  induction n generalizing m with
  | zero => simp [adjustAces]
  | succ n ih =>
    rw [adjustAces]
    have h : 21 < m + 10 * (n + 1) := by omega
    simp only [if_pos h]
    have : m + 10 * (n + 1) - 10 = m + 10 * n := by omega
    rw [this]; exact ih m hm

theorem handValue_achieves (cards : List Card) :
    ∃ k ≤ numAces cards, Hand.value ⟨cards, false⟩ = minTotal cards + 10 * k := by
  have := adjustAces_achieves (numAces cards) (minTotal cards)
  simpa [Hand.value, calculateValue, rawTotal_eq_minTotal] using this

theorem handValue_le21 (cards : List Card) (h : minTotal cards ≤ 21) :
    Hand.value ⟨cards, false⟩ ≤ 21 := by
  have := adjustAces_le21 (numAces cards) (minTotal cards) h
  simpa [Hand.value, calculateValue, rawTotal_eq_minTotal] using this

theorem handValue_maximal (cards : List Card) (k : Nat) (hk : k ≤ numAces cards)
    (h21 : minTotal cards + 10 * k ≤ 21) :
    minTotal cards + 10 * k ≤ Hand.value ⟨cards, false⟩ := by
  have := adjustAces_maximal (numAces cards) (minTotal cards) k hk h21
  simpa [Hand.value, calculateValue, rawTotal_eq_minTotal] using this

theorem handValue_stuck (cards : List Card) (h : 21 < minTotal cards) :
    Hand.value ⟨cards, false⟩ = minTotal cards := by
  have := adjustAces_stuck (numAces cards) (minTotal cards) h
  simpa [Hand.value, calculateValue, rawTotal_eq_minTotal] using this

/-- C10. Hand-value characterization: the computed hand value is a member of
the obtainable totals (each ace counted as 1 or 11); whenever some obtainable
total does not exceed 21 the value is the largest such total; when every
obtainable total exceeds 21 the value is the minimal total (all aces as 1);
and `is_busted` holds exactly when even the all-aces-as-1 total exceeds 21.
`add_card` recomputes value and soft from the cards, so this holds after
every `add_card` (the statement ranges over all card lists). -/
theorem hand_value_characterization (cards : List Card) :
    (Hand.value ⟨cards, false⟩ ∈ aceTotals cards) ∧
    ((∃ t ∈ aceTotals cards, t ≤ 21) →
      Hand.value ⟨cards, false⟩ ≤ 21 ∧
      ∀ t ∈ aceTotals cards, t ≤ 21 → t ≤ Hand.value ⟨cards, false⟩) ∧
    ((∀ t ∈ aceTotals cards, 21 < t) →
      Hand.value ⟨cards, false⟩ = minTotal cards) ∧
    (Hand.isBusted ⟨cards, false⟩ = true ↔ 21 < minTotal cards) := by
  have hmem : ∀ t, t ∈ aceTotals cards ↔
      ∃ k ≤ numAces cards, t = minTotal cards + 10 * k := by
    intro t
    simp only [aceTotals, List.mem_map, List.mem_range]
    constructor
    · rintro ⟨k, hk, rfl⟩; exact ⟨k, by omega, rfl⟩
    · rintro ⟨k, hk, rfl⟩; exact ⟨k, by omega, rfl⟩
  refine ⟨?_, ?_, ?_, ?_⟩
  · obtain ⟨k, hk, hv⟩ := handValue_achieves cards
    exact (hmem _).mpr ⟨k, hk, hv⟩
  · rintro ⟨t, ht, ht21⟩
    obtain ⟨k, hk, rfl⟩ := (hmem t).mp ht
    have hmin : minTotal cards ≤ 21 := by omega
    refine ⟨handValue_le21 cards hmin, ?_⟩
    intro t' ht' ht21'
    obtain ⟨k', hk', rfl⟩ := (hmem t').mp ht'
    exact handValue_maximal cards k' hk' ht21'
  · intro hall
    have : minTotal cards ∈ aceTotals cards := by
      exact (hmem _).mpr ⟨0, Nat.zero_le _, by omega⟩
    exact handValue_stuck cards (hall _ this)
  · constructor
    · intro hb
      by_contra hle
      push_neg at hle
      have := handValue_le21 cards hle
      simp only [Hand.isBusted, decide_eq_true_eq] at hb
      omega
    · intro hgt
      have := handValue_stuck cards hgt
      simp only [Hand.isBusted, decide_eq_true_eq, this]
      omega

/-- Witness for `hand_value_characterization` at a concrete hand (A, 9, A):
obtainable totals are 11, 21, 31; the computed value is 21. -/
theorem hand_value_characterization_witness :
    (Hand.value ⟨[⟨Rank.rA, Suit.S⟩, ⟨Rank.r9, Suit.H⟩, ⟨Rank.rA, Suit.D⟩], false⟩ ∈
      aceTotals [⟨Rank.rA, Suit.S⟩, ⟨Rank.r9, Suit.H⟩, ⟨Rank.rA, Suit.D⟩]) ∧
    ((∃ t ∈ aceTotals [⟨Rank.rA, Suit.S⟩, ⟨Rank.r9, Suit.H⟩, ⟨Rank.rA, Suit.D⟩], t ≤ 21) →
      Hand.value ⟨[⟨Rank.rA, Suit.S⟩, ⟨Rank.r9, Suit.H⟩, ⟨Rank.rA, Suit.D⟩], false⟩ ≤ 21 ∧
      ∀ t ∈ aceTotals [⟨Rank.rA, Suit.S⟩, ⟨Rank.r9, Suit.H⟩, ⟨Rank.rA, Suit.D⟩], t ≤ 21 →
        t ≤ Hand.value ⟨[⟨Rank.rA, Suit.S⟩, ⟨Rank.r9, Suit.H⟩, ⟨Rank.rA, Suit.D⟩], false⟩) ∧
    ((∀ t ∈ aceTotals [⟨Rank.rA, Suit.S⟩, ⟨Rank.r9, Suit.H⟩, ⟨Rank.rA, Suit.D⟩], 21 < t) →
      Hand.value ⟨[⟨Rank.rA, Suit.S⟩, ⟨Rank.r9, Suit.H⟩, ⟨Rank.rA, Suit.D⟩], false⟩ =
        minTotal [⟨Rank.rA, Suit.S⟩, ⟨Rank.r9, Suit.H⟩, ⟨Rank.rA, Suit.D⟩]) ∧
    (Hand.isBusted ⟨[⟨Rank.rA, Suit.S⟩, ⟨Rank.r9, Suit.H⟩, ⟨Rank.rA, Suit.D⟩], false⟩ = true ↔
      21 < minTotal [⟨Rank.rA, Suit.S⟩, ⟨Rank.r9, Suit.H⟩, ⟨Rank.rA, Suit.D⟩]) :=
  hand_value_characterization _

-- ============================================================
-- blackjack.py: BlackjackGame
-- ============================================================

/-- The shoe. Python stores the list bottom-up and `deal_card` pops the END;
we store the same shoe in deal order (head = next card dealt). `deal_card`
re-initializes a freshly shuffled 6-deck shoe whenever fewer than 52 cards
remain; that reshuffle consults the RNG, which the embedding does not model,
so `deal` is `none` in that case and every theorem below supplies a shoe
long enough that the reshuffle branch is never reached. -/
structure Deck where
  cards : List Card
  deriving DecidableEq, Repr

def Deck.deal (d : Deck) : Option (Card × Deck) :=
  if d.cards.length < 52 then none
  else
    match d.cards with
    | [] => none
    | c :: rest => some (c, ⟨rest⟩)

theorem Deck.deal_shrinks {d : Deck} {c : Card} {d2 : Deck}
    (h : d.deal = some (c, d2)) : d2.cards.length < d.cards.length := by
  unfold Deck.deal at h
  split at h
  · simp at h
  · split at h
    · simp at h
    · rename_i hcs
      cases h
      simp [hcs]

/-- Hand statuses of blackjack.py (`'Playing'`, `'Stood'`, ...). -/
inductive BJStatus where
  | Playing | Stood | Bust | Doubled | Surrendered | Blackjack
  deriving DecidableEq, Repr

/-- The per-hand `actions` dict. The cleared dict `{}` is all-false: Python
reads the flags with `.get`, under which a missing key and `False` agree. -/
structure Actions where
  can_split : Bool := false
  can_double : Bool := false
  can_surrender : Bool := false
  deriving DecidableEq, Repr

def noActions : Actions := {}

/-- One entry of `BlackjackGame.player_hands`:
`{'hand': ..., 'bet': ..., 'status': ..., 'actions': ..., ('payout': ...)}`.
The `payout` key is absent until the hand is resolved (`none`). -/
structure HandState where
  hand : Hand
  bet : Rat
  status : BJStatus
  actions : Actions
  payout : Option Rat := none
  deriving DecidableEq, Repr

/-- `BlackjackGame.__init__` state. -/
structure BlackjackGame where
  deck : Deck
  player_hands : List HandState
  dealer_hand : Hand
  current_hand_index : Nat
  is_insurance_available : Bool
  insurance_bet : Rat
  insurance_payout : Rat
  initial_bet : Rat
  deriving DecidableEq, Repr

/-- `BlackjackGame.DEALER_STANDS_ON_SOFT_17 = False` (house hits soft 17). -/
def DEALER_STANDS_ON_SOFT_17 : Bool := false

/-- `BlackjackGame(bet_amount, deck)`: one empty player hand with the bet,
empty dealer hand, no insurance. -/
def mkBlackjackGame (bet : Rat) (deck : Deck) : BlackjackGame where
  deck := deck
  player_hands := [{ hand := ⟨[], false⟩, bet := bet, status := .Playing, actions := noActions }]
  dealer_hand := ⟨[], false⟩
  current_hand_index := 0
  is_insurance_available := false
  insurance_bet := 0
  insurance_payout := 0
  initial_bet := bet

-- List helpers mirroring in-place list mutation / insertion --

def listModify : List α → Nat → (α → α) → List α
  | [], _, _ => []
  | x :: xs, 0, f => f x :: xs
  | x :: xs, n + 1, f => x :: listModify xs n f

theorem listModify_length (l : List α) (i : Nat) (f : α → α) :
    (listModify l i f).length = l.length := by
  induction l generalizing i with
  | nil => rfl
  | cons x xs ih =>
    cases i with
    | zero => rfl
    | succ n => simp [listModify, ih]

theorem listModify_get?_ne (l : List α) (i j : Nat) (f : α → α) (h : j ≠ i) :
    (listModify l i f).get? j = l.get? j := by
  induction l generalizing i j with
  | nil => rfl
  | cons x xs ih =>
    cases i with
    | zero => cases j with
      | zero => omega
      | succ m => rfl
    | succ n => cases j with
      | zero => rfl
      | succ m => simpa [listModify] using ih n m (by omega)

theorem listModify_get?_self (l : List α) (i : Nat) (f : α → α) :
    (listModify l i f).get? i = (l.get? i).map f := by
  induction l generalizing i with
  | nil => rfl
  | cons x xs ih =>
    cases i with
    | zero => rfl
    | succ n => simpa [listModify] using ih n

/-- `list.insert(i + 1, x)`: insert `x` right after position `i`. -/
def listInsertAfter : List α → Nat → α → List α
  | [], _, a => [a]
  | x :: xs, 0, a => x :: a :: xs
  | x :: xs, n + 1, a => x :: listInsertAfter xs n a

theorem listInsertAfter_length (l : List α) (i : Nat) (a : α) :
    (listInsertAfter l i a).length = l.length + 1 := by
  induction l generalizing i with
  | nil => rfl
  | cons x xs ih =>
    cases i with
    | zero => rfl
    | succ n => simp [listInsertAfter, ih]

-- _check_available_actions --

/-- Body of `_check_available_actions` for the hand at list position `idx`:
reset the action flags, then (only for a still-Playing two-card hand) enable
double, enable surrender when `idx == 0`, and enable split on equal ranks. -/
def checkActionsFor (idx : Nat) (hs : HandState) : HandState :=
  let hs := { hs with actions := noActions }
  if hs.status ≠ .Playing then hs
  else if hs.hand.cards.length = 2 then
    { hs with actions :=
      { can_double := true
        can_surrender := idx = 0
        can_split :=
          match hs.hand.cards with
          | [c1, c2] => c1.rank = c2.rank
          | _ => false } }
  else hs

/-- `BlackjackGame._check_available_actions`: acts on the current hand;
`return` when the index is past the last hand. -/
def checkAvailableActions (g : BlackjackGame) : BlackjackGame :=
  if g.player_hands.length ≤ g.current_hand_index then g
  else { g with player_hands := listModify g.player_hands g.current_hand_index (checkActionsFor g.current_hand_index) }

-- Dealer logic --

/-- The drawing condition of the `while True` loop in `_dealer_turn`:
draw when value < 17, or on soft 17 under the hit-soft-17 house rule. -/
def dealerDraws (h : Hand) : Bool :=
  h.value < 17 || (h.value = 17 && h.soft && !DEALER_STANDS_ON_SOFT_17)

/-- The drawing loop of `BlackjackGame._dealer_turn`: draw while the
condition holds, stopping immediately on bust. -/
def dealerTurn (hand : Hand) (d : Deck) : Option (Hand × Deck) :=
  if dealerDraws hand then
    match hdeal : d.deal with
    | none => none
    | some (c, d2) =>
      let h2 := hand.addCard c
      if h2.isBusted then some (h2, d2) else dealerTurn h2 d2
  else some (hand, d)
termination_by d.cards.length
decreasing_by exact Deck.deal_shrinks hdeal

/-- `BlackjackGame._resolve_insurance`. -/
def resolveInsurance (g : BlackjackGame) : BlackjackGame :=
  if 0 < g.insurance_bet then
    if g.dealer_hand.isBlackjack then { g with insurance_payout := g.insurance_bet * 2 }
    else { g with insurance_payout := -g.insurance_bet }
  else g

/-- Per-hand payout rule of `BlackjackGame._resolve_game`; a hand that
already carries a `payout` (e.g. a surrendered hand) is left untouched. -/
def resolvePayout (dealer : Hand) (hs : HandState) : HandState :=
  if hs.payout.isSome then hs
  else
    let payout : Rat :=
      if hs.status = .Blackjack then
        (if dealer.isBlackjack then 0 else hs.bet * (3 / 2))
      else if hs.status = .Bust then -hs.bet
      else if dealer.isBusted then hs.bet
      else if dealer.value < hs.hand.value then hs.bet
      else if hs.hand.value < dealer.value then -hs.bet
      else 0
    { hs with payout := some payout }

/-- `BlackjackGame._resolve_game`. -/
def resolveGame (g : BlackjackGame) : BlackjackGame :=
  { g with player_hands := g.player_hands.map (resolvePayout g.dealer_hand) }

/-- `BlackjackGame._dealer_turn`: resolve insurance, run the dealer drawing
loop, then resolve every player hand. -/
def dealerTurnGame (g : BlackjackGame) : Option BlackjackGame :=
  match dealerTurn (resolveInsurance g).dealer_hand (resolveInsurance g).deck with
  | none => none
  | some (h, d) => some (resolveGame { resolveInsurance g with dealer_hand := h, deck := d })

/-- The `self.current_hand_index += 1` step opening `_advance_hand`. -/
def bumpIndex (g : BlackjackGame) : BlackjackGame :=
  { g with current_hand_index := g.current_hand_index + 1 }

/-- `BlackjackGame._advance_hand`: step to the next hand, re-computing its
available actions and skipping hands that are no longer `Playing`; past the
last hand, run the dealer turn. -/
def advanceHand (g : BlackjackGame) : Option BlackjackGame :=
  if (bumpIndex g).player_hands.length ≤ (bumpIndex g).current_hand_index then
    dealerTurnGame (bumpIndex g)
  else
    match (checkAvailableActions (bumpIndex g)).player_hands.get?
        (checkAvailableActions (bumpIndex g)).current_hand_index with
    | none => some (checkAvailableActions (bumpIndex g))
    | some hs =>
      if hs.status = .Playing then some (checkAvailableActions (bumpIndex g))
      else advanceHand (checkAvailableActions (bumpIndex g))
termination_by g.player_hands.length - g.current_hand_index
decreasing_by
  simp_all only [checkAvailableActions, bumpIndex]
  split <;> simp_all [listModify_length] <;> omega

/-- Messages returned by the action methods; each constructor stands for the
corresponding f-string of blackjack.py (error messages begin `"Error: ..."`
in the source and are the `err...` constructors here). -/
inductive BJMsg where
  | gameStarted
  | dealerShowsAce
  | blackjackGameOver
  | hitMsg
  | bustMsg
  | reached21
  | stoodMsg
  | doubledMsg
  | splitMsg (acesAuto : Bool)
  | surrenderedMsg
  | insuranceTaken
  | errCannotHit
  | errCannotStand
  | errCannotDouble
  | errCannotSplit
  | errCannotSurrender
  | errNoInsurance
  deriving DecidableEq, Repr

/-- `BlackjackGame._is_current_hand_actionable`. -/
def isCurrentHandActionable (g : BlackjackGame) : Bool :=
  match g.player_hands.get? g.current_hand_index with
  | some hs => hs.status = .Playing
  | none => false

/-- `BlackjackGame.start_game`: deal player/dealer/player/dealer, offer
insurance on a dealer ace up-card, and handle an immediate natural 21. -/
def BlackjackGame.startGame (g : BlackjackGame) : Option (BlackjackGame × BJMsg) :=
  match g.deck.deal with
  | none => none
  | some (p1, d1) =>
  match d1.deal with
  | none => none
  | some (q1, d2) =>
  match d2.deal with
  | none => none
  | some (p2, d3) =>
  match d3.deal with
  | none => none
  | some (q2, d4) =>
    let g : BlackjackGame :=
      { g with
        deck := d4
        player_hands := listModify g.player_hands 0
          (fun hs => { hs with hand := (hs.hand.addCard p1).addCard p2 })
        dealer_hand := (g.dealer_hand.addCard q1).addCard q2 }
    let dealerUpAce : Bool := (g.dealer_hand.cards.get? 0).map Card.rank = some Rank.rA
    let g := if dealerUpAce then { g with is_insurance_available := true } else g
    match g.player_hands.get? 0 with
    | none => none
    | some h0 =>
      if h0.hand.isBlackjack then
        let ph := listModify g.player_hands 0 (fun hs => { hs with status := .Blackjack })
        let g : BlackjackGame := { g with player_hands := ph }
        if dealerUpAce then some (g, .dealerShowsAce)
        else some (resolveGame g, .blackjackGameOver)
      else some (checkAvailableActions g, .gameStarted)

/-- `BlackjackGame.hit`. -/
def BlackjackGame.hit (g : BlackjackGame) : Option (BlackjackGame × BJMsg) :=
  if ¬ isCurrentHandActionable g then some (g, .errCannotHit)
  else
    match g.deck.deal with
    | none => none
    | some (c, d) =>
      let g : BlackjackGame :=
        { g with
          deck := d
          player_hands := listModify g.player_hands g.current_hand_index
            (fun hs => { hs with hand := hs.hand.addCard c, actions := noActions }) }
      match g.player_hands.get? g.current_hand_index with
      | none => none
      | some hs =>
        if hs.hand.isBusted then
          let ph := listModify g.player_hands g.current_hand_index
            (fun h => { h with status := .Bust })
          (advanceHand { g with player_hands := ph }).map (fun g2 => (g2, .bustMsg))
        else if hs.hand.value = 21 then
          let ph := listModify g.player_hands g.current_hand_index
            (fun h => { h with status := .Stood })
          (advanceHand { g with player_hands := ph }).map (fun g2 => (g2, .reached21))
        else some (g, .hitMsg)

/-- `BlackjackGame.stand`. -/
def BlackjackGame.stand (g : BlackjackGame) : Option (BlackjackGame × BJMsg) :=
  if ¬ isCurrentHandActionable g then some (g, .errCannotStand)
  else
    let ph := listModify g.player_hands g.current_hand_index
      (fun h => { h with status := .Stood })
    (advanceHand { g with player_hands := ph }).map (fun g2 => (g2, .stoodMsg))

/-- `BlackjackGame.double_down`: rejected (game state unchanged) unless the
current hand still has its `can_double` flag; otherwise double the bet,
draw exactly one card, stand (or bust), and advance. -/
def BlackjackGame.doubleDown (g : BlackjackGame) : Option (BlackjackGame × BJMsg) :=
  match g.player_hands.get? g.current_hand_index with
  | none => none
  | some hs =>
    if ¬ hs.actions.can_double then some (g, .errCannotDouble)
    else
      match g.deck.deal with
      | none => none
      | some (c, d) =>
        let hs2 : HandState := { hs with bet := hs.bet * 2, hand := hs.hand.addCard c }
        let hs2 : HandState :=
          { hs2 with status := if hs2.hand.isBusted then .Bust else .Doubled }
        (advanceHand { g with
          deck := d
          player_hands := listModify g.player_hands g.current_hand_index
            (fun _ => hs2) }).map (fun g2 => (g2, .doubledMsg))

/-- `BlackjackGame.split`: rejected unless `can_split`; replace the pair with
two one-card hands, deal one card to each, and — when the split rank is an
ace — force both hands to `Stood` and advance past them. -/
def BlackjackGame.split (g : BlackjackGame) : Option (BlackjackGame × BJMsg) :=
  match g.player_hands.get? g.current_hand_index with
  | none => none
  | some hs =>
    if ¬ hs.actions.can_split then some (g, .errCannotSplit)
    else
      match hs.hand.cards with
      | [card1, card2] =>
        match g.deck.deal with
        | none => none
        | some (c1, d1) =>
        match d1.deal with
        | none => none
        | some (c2, d2) =>
          let hand1 : HandState :=
            { hs with hand := Hand.addCard ⟨[card1], true⟩ c1, actions := noActions }
          let hand2 : HandState :=
            { hand := Hand.addCard ⟨[card2], true⟩ c2
              bet := hs.bet
              status := .Playing
              actions := { can_split := false, can_double := true, can_surrender := false } }
          let g : BlackjackGame :=
            { g with
              deck := d2
              player_hands := listInsertAfter
                (listModify g.player_hands g.current_hand_index (fun _ => hand1))
                g.current_hand_index hand2 }
          if card1.rank = Rank.rA then
            let ph := listModify
              (listModify g.player_hands g.current_hand_index
                (fun h => { h with status := .Stood }))
              (g.current_hand_index + 1) (fun h => { h with status := .Stood })
            let g : BlackjackGame := { g with player_hands := ph }
            (advanceHand g).map (fun g2 => (g2, .splitMsg true))
          else
            some (checkAvailableActions g, .splitMsg false)
      | _ => none

/-- `BlackjackGame.surrender`: rejected unless `can_surrender`; records the
`-bet/2` payout on the current hand, marks it `Surrendered`, and jumps to
the dealer turn. -/
def BlackjackGame.surrender (g : BlackjackGame) : Option (BlackjackGame × BJMsg) :=
  match g.player_hands.get? g.current_hand_index with
  | none => none
  | some hs =>
    if ¬ hs.actions.can_surrender then some (g, .errCannotSurrender)
    else
      let hs2 : HandState :=
        { hs with payout := some (-(hs.bet / 2)), status := .Surrendered, actions := noActions }
      let g : BlackjackGame :=
        { g with
          player_hands := listModify g.player_hands g.current_hand_index (fun _ => hs2)
          current_hand_index := g.player_hands.length - 1 }
      (advanceHand g).map (fun g2 => (g2, .surrenderedMsg))

/-- `BlackjackGame.take_insurance`: rejected unless insurance is available;
sets the side bet to half the initial bet and withdraws the offer. -/
def BlackjackGame.takeInsurance (g : BlackjackGame) : BlackjackGame × BJMsg :=
  if ¬ g.is_insurance_available then (g, .errNoInsurance)
  else ({ g with insurance_bet := g.initial_bet / 2, is_insurance_available := false },
        .insuranceTaken)

-- get_game_state projections --

/-- `game_over` of `get_game_state`. -/
def BlackjackGame.gameOver (g : BlackjackGame) : Bool :=
  g.player_hands.length ≤ g.current_hand_index

/-- The sum `total_payout` of `get_game_state` (hand payouts, absent = 0,
plus the insurance payout). -/
def BlackjackGame.totalPayoutSum (g : BlackjackGame) : Rat :=
  (g.player_hands.map (fun h => h.payout.getD 0)).sum + g.insurance_payout

/-- `total_payout` of `get_game_state` is `None` until the game is over. -/
def BlackjackGame.totalPayout (g : BlackjackGame) : Option Rat :=
  if g.gameOver then some g.totalPayoutSum else none

/-- `is_current_turn` of a hand in `get_game_state`. -/
def BlackjackGame.isCurrentTurn (g : BlackjackGame) (i : Nat) : Bool :=
  i = g.current_hand_index && !g.gameOver &&
    ((g.player_hands.get? i).map (fun h => h.status) = some BJStatus.Playing)

-- ============================================================
-- Preservation lemmas for the engine's internal steps
-- ============================================================

/-- The per-hand data that `_check_available_actions`, `_advance_hand` and
`_resolve_game` never change: cards, status and bet. -/
def handCore (h : HandState) : Hand × BJStatus × Rat := (h.hand, h.status, h.bet)

theorem checkActionsFor_eq (idx : Nat) (hs : HandState) :
    ∃ a, checkActionsFor idx hs = { hs with actions := a } := by
  unfold checkActionsFor
  by_cases h1 : hs.status ≠ BJStatus.Playing
  · exact ⟨noActions, by simp [h1]⟩
  · by_cases h2 : hs.hand.cards.length = 2
    · refine ⟨{ can_split := match hs.hand.cards with
                  | [c1, c2] => decide (c1.rank = c2.rank)
                  | _ => false
                can_double := true
                can_surrender := decide (idx = 0) }, by simp [h1, h2]⟩
    · exact ⟨noActions, by simp [h1, h2]⟩

theorem resolvePayout_eq (dealer : Hand) (hs : HandState) :
    ∃ p, resolvePayout dealer hs = { hs with payout := p } := by
  unfold resolvePayout
  split
  · exact ⟨hs.payout, rfl⟩
  · exact ⟨_, rfl⟩

theorem resolvePayout_keeps_some (dealer : Hand) (hs : HandState) (p : Rat)
    (h : hs.payout = some p) : (resolvePayout dealer hs).payout = some p := by
  unfold resolvePayout
  have : hs.payout.isSome := by simp [h]
  simp [this, h]

/-- Invariant relating a game to the result of `_advance_hand` (and of the
dealer phase it may trigger): hand cards, statuses and bets survive, recorded
payouts survive, actions of hands at or before the old current index survive,
and the current index strictly increases. -/
structure AdvInv (g g2 : BlackjackGame) : Prop where
  len : g2.player_hands.length = g.player_hands.length
  core : ∀ j, (g2.player_hands.get? j).map handCore = (g.player_hands.get? j).map handCore
  payout : ∀ j p, (g.player_hands.get? j).map HandState.payout = some (some p) →
    (g2.player_hands.get? j).map HandState.payout = some (some p)
  actsLe : ∀ j, j ≤ g.current_hand_index →
    (g2.player_hands.get? j).map HandState.actions =
      (g.player_hands.get? j).map HandState.actions
  idxLt : g.current_hand_index < g2.current_hand_index

theorem dealerTurnGame_hands (g g2 : BlackjackGame) (h : dealerTurnGame g = some g2) :
    (∀ j, g2.player_hands.get? j = (g.player_hands.get? j).map
      (fun hs => resolvePayout g2.dealer_hand hs)) ∧
    g2.current_hand_index = g.current_hand_index := by
  unfold dealerTurnGame at h
  have hins : (resolveInsurance g).player_hands = g.player_hands := by
    unfold resolveInsurance; split <;> (try split) <;> rfl
  have hinsd : (resolveInsurance g).dealer_hand = g.dealer_hand := by
    unfold resolveInsurance; split <;> (try split) <;> rfl
  have hinsdeck : (resolveInsurance g).deck = g.deck := by
    unfold resolveInsurance; split <;> (try split) <;> rfl
  have hinsidx : (resolveInsurance g).current_hand_index = g.current_hand_index := by
    unfold resolveInsurance; split <;> (try split) <;> rfl
  split at h
  · exact absurd h (by simp)
  · rename_i hand2 deck2 heq
    cases h
    refine ⟨fun j => ?_, by simp [resolveGame, hinsidx]⟩
    simp [resolveGame, List.get?_map, hins]

theorem AdvInv_of_dealer (g g2 : BlackjackGame) (h : dealerTurnGame g = some g2)
    : (∀ j, (g2.player_hands.get? j).map handCore = (g.player_hands.get? j).map handCore) ∧
      (∀ j p, (g.player_hands.get? j).map HandState.payout = some (some p) →
        (g2.player_hands.get? j).map HandState.payout = some (some p)) ∧
      (∀ j, (g2.player_hands.get? j).map HandState.actions =
        (g.player_hands.get? j).map HandState.actions) ∧
      g2.player_hands.length = g.player_hands.length ∧
      g2.current_hand_index = g.current_hand_index := by
  obtain ⟨hget, hidx⟩ := dealerTurnGame_hands g g2 h
  refine ⟨fun j => ?_, fun j p hp => ?_, fun j => ?_, ?_, hidx⟩
  · rw [hget j]
    cases hj : g.player_hands.get? j with
    | none => simp
    | some hs =>
      obtain ⟨q, hq⟩ := resolvePayout_eq g2.dealer_hand hs
      simp [hq, handCore]
  · rw [hget j]
    cases hj : g.player_hands.get? j with
    | none => rw [hj] at hp; simp at hp
    | some hs =>
      rw [hj] at hp
      have hps : hs.payout = some p := by simpa using hp
      simp [resolvePayout_keeps_some g2.dealer_hand hs p hps]
  · rw [hget j]
    cases hj : g.player_hands.get? j with
    | none => simp
    | some hs =>
      obtain ⟨q, hq⟩ := resolvePayout_eq g2.dealer_hand hs
      simp [hq]
  · have := congrArg (fun o => o.isSome) (hget (g2.player_hands.length))
    -- length via map
    have hlen : ∀ j, (g2.player_hands.get? j).isSome = (g.player_hands.get? j).isSome := by
      intro j; rw [hget j]; cases g.player_hands.get? j <;> simp
    by_contra hne
    rcases Nat.lt_or_ge g2.player_hands.length g.player_hands.length with hlt | hge
    · have h1 := hlen g2.player_hands.length
      rw [List.get?_eq_none.mpr (le_refl _)] at h1
      rw [List.get?_eq_get (by omega)] at h1
      simp at h1
    · have : g.player_hands.length < g2.player_hands.length := by omega
      have h1 := hlen g.player_hands.length
      rw [List.get?_eq_none.mpr (le_refl _)] at h1
      rw [List.get?_eq_get (by omega)] at h1
      simp at h1

theorem checkAvailableActions_fields (g : BlackjackGame) :
    (checkAvailableActions g).current_hand_index = g.current_hand_index ∧
    (checkAvailableActions g).player_hands.length = g.player_hands.length ∧
    (checkAvailableActions g).deck = g.deck ∧
    (checkAvailableActions g).dealer_hand = g.dealer_hand := by
  unfold checkAvailableActions
  split <;> simp [listModify_length]

theorem checkAvailableActions_get (g : BlackjackGame) (j : Nat) :
    (((checkAvailableActions g).player_hands.get? j).map handCore =
      (g.player_hands.get? j).map handCore) ∧
    (∀ p, (g.player_hands.get? j).map HandState.payout = some (some p) →
      ((checkAvailableActions g).player_hands.get? j).map HandState.payout = some (some p)) ∧
    (j ≠ g.current_hand_index →
      (checkAvailableActions g).player_hands.get? j = g.player_hands.get? j) := by
  unfold checkAvailableActions
  split
  · exact ⟨rfl, fun p hp => hp, fun _ => rfl⟩
  · by_cases hj : j = g.current_hand_index
    · rw [hj]
      dsimp only
      rw [listModify_get?_self]
      cases hg : g.player_hands.get? g.current_hand_index with
      | none => exact ⟨by simp, fun p hp => by simp at hp, fun hne => absurd rfl hne⟩
      | some hs =>
        obtain ⟨a, ha⟩ := checkActionsFor_eq g.current_hand_index hs
        refine ⟨by simp [ha, handCore], fun p hp => ?_, fun hne => absurd rfl hne⟩
        have hps : hs.payout = some p := by simpa using hp
        simp [ha, hps]
    · dsimp only
      rw [listModify_get?_ne _ _ _ _ hj]
      exact ⟨rfl, fun p hp => hp, fun _ => rfl⟩

theorem advanceHand_inv : ∀ (n : Nat) (g g2 : BlackjackGame),
    g.player_hands.length - g.current_hand_index ≤ n →
    advanceHand g = some g2 → AdvInv g g2 := by
  intro n
  induction n with
  | zero =>
    intro g g2 hn h
    rw [advanceHand.eq_def] at h
    have hle : (bumpIndex g).player_hands.length ≤ (bumpIndex g).current_hand_index := by
      simp [bumpIndex]; omega
    rw [if_pos hle] at h
    obtain ⟨hcore, hpay, hacts, hlen, hidx⟩ := AdvInv_of_dealer _ _ h
    exact ⟨by simpa [bumpIndex] using hlen,
      fun j => by simpa [bumpIndex] using hcore j,
      fun j p hp => by apply hpay; simpa [bumpIndex] using hp,
      fun j hjle => by simpa [bumpIndex] using hacts j,
      by simp [bumpIndex] at hidx; omega⟩
  | succ n ih =>
    intro g g2 hn h
    rw [advanceHand.eq_def] at h
    by_cases hle : (bumpIndex g).player_hands.length ≤ (bumpIndex g).current_hand_index
    · rw [if_pos hle] at h
      obtain ⟨hcore, hpay, hacts, hlen, hidx⟩ := AdvInv_of_dealer _ _ h
      exact ⟨by simpa [bumpIndex] using hlen,
        fun j => by simpa [bumpIndex] using hcore j,
        fun j p hp => by apply hpay; simpa [bumpIndex] using hp,
        fun j hjle => by simpa [bumpIndex] using hacts j,
        by simp [bumpIndex] at hidx; omega⟩
    · rw [if_neg hle] at h
      obtain ⟨hckIdx, hckLen, -, -⟩ := checkAvailableActions_fields (bumpIndex g)
      have hbLen : (bumpIndex g).player_hands.length = g.player_hands.length := rfl
      have hbIdx : (bumpIndex g).current_hand_index = g.current_hand_index + 1 := rfl
      -- the step from g to checkAvailableActions (bumpIndex g)
      have hstep : ∀ j,
          (((checkAvailableActions (bumpIndex g)).player_hands.get? j).map handCore =
            (g.player_hands.get? j).map handCore) ∧
          (∀ p, (g.player_hands.get? j).map HandState.payout = some (some p) →
            ((checkAvailableActions (bumpIndex g)).player_hands.get? j).map
              HandState.payout = some (some p)) ∧
          (j ≠ g.current_hand_index + 1 →
            (checkAvailableActions (bumpIndex g)).player_hands.get? j =
              g.player_hands.get? j) := by
        intro j
        obtain ⟨h1, h2, h3⟩ := checkAvailableActions_get (bumpIndex g) j
        exact ⟨h1, h2, fun hne => h3 (by rw [hbIdx]; exact hne)⟩
      cases hget : (checkAvailableActions (bumpIndex g)).player_hands.get?
          (checkAvailableActions (bumpIndex g)).current_hand_index with
      | none =>
        rw [hget] at h
        cases h
        refine ⟨by rw [hckLen]; exact hbLen, fun j => (hstep j).1,
          fun j p hp => (hstep j).2.1 p hp,
          fun j hjle => ?_, by rw [hckIdx, hbIdx]; omega⟩
        rw [(hstep j).2.2 (by omega)]
      | some hs =>
        rw [hget] at h
        dsimp only at h
        by_cases hplay : hs.status = BJStatus.Playing
        · rw [if_pos hplay] at h
          cases h
          refine ⟨by rw [hckLen]; exact hbLen, fun j => (hstep j).1,
            fun j p hp => (hstep j).2.1 p hp,
            fun j hjle => ?_, by rw [hckIdx, hbIdx]; omega⟩
          rw [(hstep j).2.2 (by omega)]
        · rw [if_neg hplay] at h
          have hmeas : (checkAvailableActions (bumpIndex g)).player_hands.length -
              (checkAvailableActions (bumpIndex g)).current_hand_index ≤ n := by
            rw [hckLen, hckIdx, hbLen, hbIdx]
            simp [bumpIndex] at hle
            omega
          have hrec := ih _ _ hmeas h
          refine ⟨by rw [hrec.len, hckLen]; exact hbLen,
            fun j => by rw [hrec.core j]; exact (hstep j).1,
            fun j p hp => hrec.payout j p ((hstep j).2.1 p hp),
            fun j hjle => ?_, ?_⟩
          · rw [hrec.actsLe j (by rw [hckIdx, hbIdx]; omega)]
            have hj3 := (hstep j).2.2 (by omega)
            rw [hj3]
          · have := hrec.idxLt
            rw [hckIdx, hbIdx] at this
            omega

theorem advanceHand_master (g g2 : BlackjackGame) (h : advanceHand g = some g2) :
    AdvInv g g2 :=
  advanceHand_inv (g.player_hands.length - g.current_hand_index) g g2 (le_refl _) h

theorem checkActionsFor_not_playing (idx : Nat) (hs : HandState)
    (h : hs.status ≠ BJStatus.Playing) :
    checkActionsFor idx hs = { hs with actions := noActions } := by
  unfold checkActionsFor
  simp [h]

theorem listInsertAfter_get?_le (l : List α) (i : Nat) (a : α) (j : Nat)
    (hji : j ≤ i) (hj : j < l.length) :
    (listInsertAfter l i a).get? j = l.get? j := by
  induction l generalizing i j with
  | nil => simp at hj
  | cons x xs ih =>
    cases i with
    | zero =>
      have : j = 0 := by omega
      subst this; rfl
    | succ n =>
      cases j with
      | zero => rfl
      | succ m =>
        simp only [listInsertAfter, List.get?]
        exact ih n m (by omega) (by simpa using hj)

theorem listInsertAfter_get?_succ (l : List α) (i : Nat) (a : α) (hi : i < l.length) :
    (listInsertAfter l i a).get? (i + 1) = some a := by
  induction l generalizing i with
  | nil => simp at hi
  | cons x xs ih =>
    cases i with
    | zero => rfl
    | succ n =>
      simp only [listInsertAfter, List.get?]
      exact ih n (by simpa using hi)

/-- When `_advance_hand` steps onto a hand that is no longer `Playing`
(e.g. the forced-`Stood` hands of an ace split), it resets that hand's
action flags and skips past it. -/
theorem advanceHand_skips (g g2 : BlackjackGame) (h : advanceHand g = some g2)
    (hlt : g.current_hand_index + 1 < g.player_hands.length)
    (hs : HandState)
    (hget : g.player_hands.get? (g.current_hand_index + 1) = some hs)
    (hnp : hs.status ≠ BJStatus.Playing) :
    ((g2.player_hands.get? (g.current_hand_index + 1)).map HandState.actions =
      some noActions) ∧
    g.current_hand_index + 1 < g2.current_hand_index := by
  rw [advanceHand.eq_def] at h
  have hnle : ¬ ((bumpIndex g).player_hands.length ≤ (bumpIndex g).current_hand_index) := by
    simp [bumpIndex]; omega
  rw [if_neg hnle] at h
  have hidx : (checkAvailableActions (bumpIndex g)).current_hand_index =
      g.current_hand_index + 1 := (checkAvailableActions_fields (bumpIndex g)).1
  have hget2 : (checkAvailableActions (bumpIndex g)).player_hands.get?
      (checkAvailableActions (bumpIndex g)).current_hand_index =
      some { hs with actions := noActions } := by
    rw [hidx]
    unfold checkAvailableActions
    rw [if_neg (by simpa [bumpIndex] using hnle)]
    dsimp only [bumpIndex]
    rw [listModify_get?_self, hget]
    simp [checkActionsFor_not_playing _ _ hnp]
  rw [hget2] at h
  dsimp only at h
  rw [if_neg (by simpa using hnp)] at h
  have hinv := advanceHand_master _ _ h
  have hacts := hinv.actsLe (g.current_hand_index + 1) (by rw [hidx])
  rw [hidx] at hget2
  constructor
  · rw [hacts, hget2]
    rfl
  · have := hinv.idxLt
    rw [hidx] at this
    exact this

-- ============================================================
-- main.py: blackjack command / display / button wrappers
-- ============================================================

/-- The monetary effect of `_display_blackjack_state` (main.py 1254-1295):
only when `get_game_state()` reports `game_over` does it credit
`total_payout + sum of all hand bets + insurance refund` back to the user
and delete the session; otherwise the ledger is untouched and the session
survives. Returns `(new balance, session removed?)`. -/
def displayBlackjackSettle (balance : Rat) (g : BlackjackGame) : Rat × Bool :=
  if g.gameOver then
    (balance + g.totalPayoutSum + (g.player_hands.map (fun h => h.bet)).sum +
      (if 0 < g.insurance_bet then g.insurance_bet else 0), true)
  else (balance, false)

/-- The `bj_..._double` branch of `button_callback` (main.py 3648-3662):
read the current hand (a Python `IndexError`, modelled `none`, if the index
is out of range), alert and stop if the balance cannot cover the additional
bet, otherwise deduct the additional bet from the ledger FIRST and only then
call `game.double_down()`, whose error result is discarded. -/
def bjDoubleCallback (balance : Rat) (g : BlackjackGame) :
    Option (Rat × BlackjackGame) :=
  match g.player_hands.get? g.current_hand_index with
  | none => none
  | some hs =>
    if balance < hs.bet then some (balance, g)
    else
      match g.doubleDown with
      | none => none
      | some (g2, _msg) => some (balance - hs.bet, g2)

-- Concrete data for the scenario theorems --

/-- A run of filler cards (2 of hearts) keeping the shoe above the
52-card reshuffle threshold. -/
def padCards (n : Nat) : List Card := List.replicate n ⟨Rank.r2, Suit.H⟩

/-- Shoe for the C4 scenario: the player receives (A, K), the dealer (7, 9). -/
def deckC4 : Deck :=
  ⟨⟨Rank.rA, Suit.S⟩ :: ⟨Rank.r7, Suit.H⟩ :: ⟨Rank.rK, Suit.D⟩ :: ⟨Rank.r9, Suit.C⟩ ::
    padCards 56⟩

/-- The game state `start_game` produces from `deckC4` with bet 10. -/
def gExpC4 : BlackjackGame :=
  { deck := ⟨padCards 56⟩
    player_hands := [{ hand := ⟨[⟨Rank.rA, Suit.S⟩, ⟨Rank.rK, Suit.D⟩], false⟩, bet := 10,
                       status := BJStatus.Blackjack, actions := noActions,
                       payout := some 15 }]
    dealer_hand := ⟨[⟨Rank.r7, Suit.H⟩, ⟨Rank.r9, Suit.C⟩], false⟩
    current_hand_index := 0
    is_insurance_available := false
    insurance_bet := 0
    insurance_payout := 0
    initial_bet := 10 }

/-- The hand (A, 6) — a soft 17 in the claim's sense: the ace is counted
as 11 (raw total 17 with one ace, value 17 ≤ 21). -/
def handA6 : Hand := ⟨[⟨Rank.rA, Suit.S⟩, ⟨Rank.r6, Suit.H⟩], false⟩

/-- C7 (code-bug evaluation). The dealer holds (A, 6): its value is 17 with
the ace still counted as 11, yet `Hand._calculate_value` reports
`soft = False` (its soft test requires `initial_value_check > value`, which
fails when no ace was demoted), so `_dealer_turn` stands instead of drawing,
although `DEALER_STANDS_ON_SOFT_17 = False` declares the hit-soft-17 rule. -/
theorem dealer_stands_on_soft17 :
    handA6.value = 17 ∧
    rawTotal handA6.cards = 17 ∧
    numAces handA6.cards = 1 ∧
    handA6.soft = false ∧
    DEALER_STANDS_ON_SOFT_17 = false ∧
    (∀ d : Deck, dealerTurn handA6 d = some (handA6, d)) := by
  refine ⟨by decide, by decide, by decide, by decide, rfl, fun d => ?_⟩
  rw [dealerTurn.eq_def]
  rw [if_neg (by decide : ¬ (dealerDraws handA6 = true))]

/-- C4 (code-bug evaluation). Bet 10, player dealt (A, K) — a natural — and
the dealer shows 7: `start_game` answers "Blackjack! Game over." and records
the 15 payout on the hand, but never advances `current_hand_index`, so
`get_game_state()` reports `game_over = False` and `total_payout = None`;
`_display_blackjack_state` therefore never runs its settlement branch: the
player's balance stays at its post-reservation value (100 − 10 = 90 here)
and the session is not removed. The spec's scenario expects +15 net. -/
theorem natural_blackjack_never_settled :
    (mkBlackjackGame 10 deckC4).startGame = some (gExpC4, BJMsg.blackjackGameOver) ∧
    gExpC4.gameOver = false ∧
    gExpC4.totalPayout = none ∧
    ((gExpC4.player_hands.get? 0).map HandState.payout) = some (some 15) ∧
    displayBlackjackSettle (100 - 10) gExpC4 = (100 - 10, false) ∧
    (100 - 10 : Rat) = 90 := by
  refine ⟨?_, by decide, ?_, ?_, ?_, by norm_num⟩
  · simp +decide [mkBlackjackGame, BlackjackGame.startGame, deckC4, padCards, Deck.deal,
      listModify, Hand.addCard, Hand.isBlackjack, Hand.value, calculateValue, rawTotal,
      numAces, adjustAces, Card.value, Rank.pts, resolveGame, resolvePayout,
      Hand.isBusted, noActions, gExpC4]
    norm_num
  · simp +decide [BlackjackGame.totalPayout, BlackjackGame.gameOver, gExpC4]
  · simp [gExpC4]
  · simp +decide [displayBlackjackSettle, BlackjackGame.gameOver, gExpC4]

/-- A blackjack round state reachable by hitting once from a dealt (5, 9)
hand: three cards, still `Playing`, all action flags cleared by the hit. The
Telegram message that displayed a Double Down button before the hit is still
on screen, so the `bj_..._double` callback remains pressable. -/
def gC5 : BlackjackGame :=
  { deck := ⟨padCards 52⟩
    player_hands := [{ hand := ⟨[⟨Rank.r5, Suit.H⟩, ⟨Rank.r9, Suit.D⟩, ⟨Rank.r2, Suit.C⟩], false⟩,
                       bet := 10, status := BJStatus.Playing, actions := noActions }]
    dealer_hand := ⟨[⟨Rank.rK, Suit.S⟩, ⟨Rank.r8, Suit.H⟩], false⟩
    current_hand_index := 0
    is_insurance_available := false
    insurance_bet := 0
    insurance_payout := 0
    initial_bet := 10 }

/-- C5 (code-bug evaluation). `game.double_down()` rejects the request (the
hand no longer has its two original cards) and leaves the round unchanged,
but the `button_callback` double branch has ALREADY deducted the additional
bet from the ledger and discards the error, so the failed action costs the
player 10: the ledger is partially mutated by a rejected operation. -/
theorem rejected_double_down_still_deducts :
    gC5.doubleDown = some (gC5, BJMsg.errCannotDouble) ∧
    bjDoubleCallback 100 gC5 = some (100 - 10, gC5) ∧
    (100 - 10 : Rat) = 90 := by
  refine ⟨rfl, ?_, by norm_num⟩
  show (if (100 : Rat) < 10 then some ((100 : Rat), gC5)
      else
        match gC5.doubleDown with
        | none => none
        | some (g2, _msg) => some ((100 : Rat) - 10, g2)) = some (100 - 10, gC5)
  rw [if_neg (by norm_num : ¬ ((100 : Rat) < 10))]
  rfl

/-- A freshly dealt round: hand (8, 8) against dealer (K, 9), bet 10, before
`_check_available_actions` has run. -/
def gC8base : BlackjackGame :=
  { deck := ⟨⟨Rank.r3, Suit.C⟩ :: ⟨Rank.r5, Suit.D⟩ :: padCards 52⟩
    player_hands := [{ hand := ⟨[⟨Rank.r8, Suit.H⟩, ⟨Rank.r8, Suit.S⟩], false⟩, bet := 10,
                       status := BJStatus.Playing, actions := noActions }]
    dealer_hand := ⟨[⟨Rank.rK, Suit.S⟩, ⟨Rank.r9, Suit.H⟩], false⟩
    current_hand_index := 0
    is_insurance_available := false
    insurance_bet := 0
    insurance_payout := 0
    initial_bet := 10 }

/-- `gC8base` after `_check_available_actions` (split, double and surrender
are all offered on the fresh pair of eights). -/
def gC8 : BlackjackGame := checkAvailableActions gC8base

/-- The game `split` produces from `gC8`: two two-card hands, and hand 0 —
the first post-split hand — is offered surrender again. -/
def gC8after : BlackjackGame :=
  { deck := ⟨padCards 52⟩
    player_hands :=
      [{ hand := ⟨[⟨Rank.r8, Suit.H⟩, ⟨Rank.r3, Suit.C⟩], true⟩, bet := 10,
         status := BJStatus.Playing,
         actions := { can_split := false, can_double := true, can_surrender := true } },
       { hand := ⟨[⟨Rank.r8, Suit.S⟩, ⟨Rank.r5, Suit.D⟩], true⟩, bet := 10,
         status := BJStatus.Playing,
         actions := { can_split := false, can_double := true, can_surrender := false } }]
    dealer_hand := ⟨[⟨Rank.rK, Suit.S⟩, ⟨Rank.r9, Suit.H⟩], false⟩
    current_hand_index := 0
    is_insurance_available := false
    insurance_bet := 0
    insurance_payout := 0
    initial_bet := 10 }

/-- C8 counterexample. Surrender is NOT offered only before a split: after
splitting the pair of eights, the current hand (index 0, a split hand, two
cards) has `can_surrender = True` again, and the display layer shows the
Surrender button for it (`is_current_turn` holds). -/
theorem surrender_offered_after_split :
    ((gC8.player_hands.get? 0).map (fun h => h.actions.can_split)) = some true ∧
    gC8.split = some (gC8after, BJMsg.splitMsg false) ∧
    gC8after.player_hands.length = 2 ∧
    ((gC8after.player_hands.get? 0).map
      (fun h => (h.actions.can_surrender, h.hand.is_split, h.hand.cards.length))) =
      some (true, true, 2) ∧
    gC8after.isCurrentTurn 0 = true := by
  refine ⟨by decide, ?_, by decide, by decide, by decide⟩
  simp +decide [gC8, gC8base, gC8after, checkAvailableActions, checkActionsFor,
    listModify, listInsertAfter, BlackjackGame.split, Deck.deal, padCards,
    Hand.addCard, noActions]

/-- The hand record `surrender` writes: payout `-bet/2`, status
`Surrendered`, actions cleared. -/
def surrenderedHand (hs : HandState) : HandState :=
  { hs with payout := some (-(hs.bet / 2)), status := BJStatus.Surrendered, actions := noActions }

/-- C8 amended. Availability: after `_check_available_actions`, the current
hand carries `can_surrender` exactly when it is the hand at index 0, still
`Playing`, with exactly two cards — a condition that holds again for the
first post-split hand, so surrender is not limited to pre-split play.
Payout: a surrender that the rules accept records `-bet/2` on the hand and
marks it `Surrendered`, and both survive the dealer phase that `surrender`
itself triggers, independent of the dealer's outcome. -/
theorem surrender_characterization (g : BlackjackGame) :
    (∀ hs, (checkAvailableActions g).player_hands.get? g.current_hand_index = some hs →
      (hs.actions.can_surrender = true ↔
        (g.current_hand_index = 0 ∧ hs.hand.cards.length = 2 ∧
          hs.status = BJStatus.Playing))) ∧
    (∀ g2 m hs0, g.player_hands.get? g.current_hand_index = some hs0 →
      hs0.actions.can_surrender = true → g.surrender = some (g2, m) →
      m = BJMsg.surrenderedMsg ∧
      (g2.player_hands.get? g.current_hand_index).map HandState.payout =
        some (some (-(hs0.bet / 2))) ∧
      (g2.player_hands.get? g.current_hand_index).map HandState.status =
        some BJStatus.Surrendered) := by
  constructor
  · intro hs hget
    unfold checkAvailableActions at hget
    by_cases hlen : g.player_hands.length ≤ g.current_hand_index
    · rw [if_pos hlen] at hget
      rw [List.get?_eq_none.mpr hlen] at hget
      simp at hget
    · rw [if_neg hlen] at hget
      dsimp only at hget
      rw [listModify_get?_self] at hget
      cases hg : g.player_hands.get? g.current_hand_index with
      | none => rw [hg] at hget; simp at hget
      | some hs0 =>
        rw [hg] at hget
        have hs_eq : hs = checkActionsFor g.current_hand_index hs0 := by
          simpa using hget.symm
        subst hs_eq
        unfold checkActionsFor
        by_cases h1 : hs0.status = BJStatus.Playing
        · by_cases h2 : hs0.hand.cards.length = 2
          · simp only [h1, h2]
            simp [h1, h2]
          · simp [h1, h2, noActions]
        · simp [h1, noActions]
  · intro g2 m hs0 hget hcan hsur
    unfold BlackjackGame.surrender at hsur
    rw [hget] at hsur
    dsimp only at hsur
    rw [if_neg (by simp [hcan])] at hsur
    obtain ⟨g3, hadv, heq⟩ := Option.map_eq_some'.mp hsur
    have hgm : g3 = g2 ∧ BJMsg.surrenderedMsg = m := by simpa using heq
    obtain ⟨rfl, hm⟩ := hgm
    have hinv := advanceHand_master _ _ hadv
    have hX : (listModify g.player_hands g.current_hand_index
        (fun _ => surrenderedHand hs0)).get? g.current_hand_index =
        some (surrenderedHand hs0) := by
      rw [listModify_get?_self, hget]
      rfl
    refine ⟨hm.symm, ?_, ?_⟩
    · refine hinv.payout g.current_hand_index (-(hs0.bet / 2)) ?_
      show Option.map HandState.payout
        ((listModify g.player_hands g.current_hand_index
          (fun _ => surrenderedHand hs0)).get? g.current_hand_index) =
        some (some (-(hs0.bet / 2)))
      rw [hX]
      rfl
    · have hcore2 : Option.map handCore (g3.player_hands.get? g.current_hand_index) =
          some (handCore (surrenderedHand hs0)) := by
        rw [hinv.core]
        show Option.map handCore
          ((listModify g.player_hands g.current_hand_index
            (fun _ => surrenderedHand hs0)).get? g.current_hand_index) =
          some (handCore (surrenderedHand hs0))
        rw [hX]
        rfl
      cases hg2get : g3.player_hands.get? g.current_hand_index with
      | none => rw [hg2get] at hcore2; simp at hcore2
      | some h2 =>
        rw [hg2get] at hcore2
        have hstat : h2.status = BJStatus.Surrendered := by
          have := congrArg (fun t => t.map (fun c => c.2.1)) hcore2
          simpa [handCore, surrenderedHand] using this
        simp [hg2get, hstat]

/-- The hand state of `gC8` (pair of eights with every action offered). -/
def hsC8 : HandState :=
  { hand := ⟨[⟨Rank.r8, Suit.H⟩, ⟨Rank.r8, Suit.S⟩], false⟩, bet := 10,
    status := BJStatus.Playing,
    actions := { can_split := true, can_double := true, can_surrender := true } }

/-- `gC8` after an accepted surrender (dealer phase included). -/
def gC8sur : BlackjackGame :=
  { deck := ⟨⟨Rank.r3, Suit.C⟩ :: ⟨Rank.r5, Suit.D⟩ :: padCards 52⟩
    player_hands := [{ hand := ⟨[⟨Rank.r8, Suit.H⟩, ⟨Rank.r8, Suit.S⟩], false⟩, bet := 10,
                       status := BJStatus.Surrendered, actions := noActions,
                       payout := some (-5) }]
    dealer_hand := ⟨[⟨Rank.rK, Suit.S⟩, ⟨Rank.r9, Suit.H⟩], false⟩
    current_hand_index := 1
    is_insurance_available := false
    insurance_bet := 0
    insurance_payout := 0
    initial_bet := 10 }

/-- Witness for `surrender_characterization` at the concrete game `gC8`. -/
theorem surrender_characterization_witness :
    (hsC8.actions.can_surrender = true ↔
      (gC8.current_hand_index = 0 ∧ hsC8.hand.cards.length = 2 ∧
        hsC8.status = BJStatus.Playing)) ∧
    (BJMsg.surrenderedMsg = BJMsg.surrenderedMsg ∧
      (gC8sur.player_hands.get? gC8.current_hand_index).map HandState.payout =
        some (some (-(hsC8.bet / 2))) ∧
      (gC8sur.player_hands.get? gC8.current_hand_index).map HandState.status =
        some BJStatus.Surrendered) := by
  have h := surrender_characterization gC8
  refine ⟨h.1 hsC8 ?_, h.2 gC8sur BJMsg.surrenderedMsg hsC8 ?_ (by decide) ?_⟩
  · show (checkAvailableActions gC8).player_hands.get? gC8.current_hand_index = some hsC8
    simp +decide [gC8, gC8base, checkAvailableActions, checkActionsFor, listModify,
      hsC8, noActions]
  · show gC8.player_hands.get? gC8.current_hand_index = some hsC8
    simp +decide [gC8, gC8base, checkAvailableActions, checkActionsFor, listModify,
      hsC8, noActions]
  · show gC8.surrender = some (gC8sur, BJMsg.surrenderedMsg)
    simp +decide [gC8, gC8base, gC8sur, checkAvailableActions, checkActionsFor,
      listModify, BlackjackGame.surrender, advanceHand, bumpIndex, dealerTurnGame,
      resolveInsurance, dealerTurn, dealerDraws, Deck.deal, padCards, resolveGame,
      resolvePayout, Hand.value, Hand.soft, calculateValue, rawTotal, numAces,
      adjustAces, Card.value, Rank.pts, Hand.isBusted, Hand.isBlackjack, noActions]
    norm_num

theorem splitHands_get (l : List α) (i : Nat) (hlt : i < l.length) (x y : α) (f : α → α) :
    ((listModify (listModify (listInsertAfter (listModify l i (fun _ => x)) i y) i f)
      (i + 1) f).get? i = some (f x)) ∧
    ((listModify (listModify (listInsertAfter (listModify l i (fun _ => x)) i y) i f)
      (i + 1) f).get? (i + 1) = some (f y)) ∧
    ((listModify (listModify (listInsertAfter (listModify l i (fun _ => x)) i y) i f)
      (i + 1) f).length = l.length + 1) := by
  have hlt2 : i < (listModify l i (fun _ => x)).length := by rw [listModify_length]; exact hlt
  have hx : (listInsertAfter (listModify l i (fun _ => x)) i y).get? i = some x := by
    rw [listInsertAfter_get?_le _ _ _ _ (le_refl i) hlt2, listModify_get?_self]
    cases hgl : l.get? i with
    | none => rw [List.get?_eq_none] at hgl; omega
    | some v => rfl
  have hy : (listInsertAfter (listModify l i (fun _ => x)) i y).get? (i + 1) = some y :=
    listInsertAfter_get?_succ _ _ _ hlt2
  refine ⟨?_, ?_, ?_⟩
  · rw [listModify_get?_ne _ _ _ _ (by omega), listModify_get?_self, hx]
    rfl
  · rw [listModify_get?_self, listModify_get?_ne _ _ _ _ (by omega), hy]
    rfl
  · rw [listModify_length, listModify_length, listInsertAfter_length, listModify_length]

/-- C9. Splitting a pair of aces: the accepted split replaces the pair by
two hands of exactly two cards each (each ace plus one newly dealt card),
forces both to `Stood`, clears both hands' action flags, and play advances
past both immediately (the final current index lies beyond both hands, and
neither hand is ever the current turn again). -/
theorem split_aces_rule (g g2 : BlackjackGame) (hs : HandState) (a1 a2 : Card) (m : BJMsg)
    (hget : g.player_hands.get? g.current_hand_index = some hs)
    (hcards : hs.hand.cards = [a1, a2])
    (hA1 : a1.rank = Rank.rA)
    (hA2 : a2.rank = Rank.rA)
    (hcan : hs.actions.can_split = true)
    (hsplit : g.split = some (g2, m)) :
    m = BJMsg.splitMsg true ∧
    g2.player_hands.length = g.player_hands.length + 1 ∧
    (∃ c1, (g2.player_hands.get? g.current_hand_index).map
      (fun h => (h.hand.cards, h.status, h.actions)) =
      some ([a1, c1], BJStatus.Stood, noActions)) ∧
    (∃ c2, (g2.player_hands.get? (g.current_hand_index + 1)).map
      (fun h => (h.hand.cards, h.status, h.actions)) =
      some ([a2, c2], BJStatus.Stood, noActions)) ∧
    g.current_hand_index + 1 < g2.current_hand_index ∧
    g2.isCurrentTurn g.current_hand_index = false ∧
    g2.isCurrentTurn (g.current_hand_index + 1) = false := by
  have hlt : g.current_hand_index < g.player_hands.length := by
    cases hln : Nat.lt_or_ge g.current_hand_index g.player_hands.length with
    | inl h => exact h
    | inr h => rw [List.get?_eq_none.mpr h] at hget; cases hget
  unfold BlackjackGame.split at hsplit
  rw [hget] at hsplit
  dsimp only at hsplit
  rw [if_neg (by simp [hcan])] at hsplit
  rw [hcards] at hsplit
  dsimp only at hsplit
  cases hd1 : g.deck.deal with
  | none => rw [hd1] at hsplit; cases hsplit
  | some cd1 =>
    obtain ⟨c1, d1⟩ := cd1
    rw [hd1] at hsplit
    dsimp only at hsplit
    cases hd2 : d1.deal with
    | none => rw [hd2] at hsplit; cases hsplit
    | some cd2 =>
      obtain ⟨c2, d2⟩ := cd2
      rw [hd2] at hsplit
      dsimp only at hsplit
      rw [if_pos hA1] at hsplit
      obtain ⟨g3, hadv, heq⟩ := Option.map_eq_some'.mp hsplit
      have hgm : g3 = g2 ∧ BJMsg.splitMsg true = m := by simpa using heq
      obtain ⟨rfl, hm⟩ := hgm
      have hinv := advanceHand_master _ _ hadv
      have hsub := splitHands_get g.player_hands g.current_hand_index hlt
        ({ hs with hand := Hand.addCard ⟨[a1], true⟩ c1, actions := noActions })
        ({ hand := Hand.addCard ⟨[a2], true⟩ c2, bet := hs.bet, status := BJStatus.Playing,
           actions := { can_split := false, can_double := true, can_surrender := false } })
        (fun h => { h with status := BJStatus.Stood })
      obtain ⟨hm0, hm1, hmlen⟩ := hsub
      refine ⟨hm.symm, ?_, ?_, ?_, ?_, ?_, ?_⟩
      · rw [hinv.len]
        exact hmlen
      · have hcore := hinv.core g.current_hand_index
        rw [hm0] at hcore
        cases hg3 : g3.player_hands.get? g.current_hand_index with
        | none => rw [hg3] at hcore; simp at hcore
        | some h0 =>
          rw [hg3] at hcore
          have hacts := hinv.actsLe g.current_hand_index (le_refl _)
          rw [hm0, hg3] at hacts
          refine ⟨c1, ?_⟩
          have h1 : handCore h0 = (Hand.addCard ⟨[a1], true⟩ c1, BJStatus.Stood, hs.bet) := by
            simpa [handCore] using hcore
          have h2 : h0.actions = noActions := by simpa using hacts
          have hcards0 : h0.hand.cards = [a1, c1] := by
            have := congrArg (fun t => t.1.cards) h1
            simpa [handCore, Hand.addCard] using this
          have hst0 : h0.status = BJStatus.Stood := by
            have := congrArg (fun t => t.2.1) h1
            simpa [handCore] using this
          simp [hcards0, hst0, h2]
      · have hcore := hinv.core (g.current_hand_index + 1)
        rw [hm1] at hcore
        cases hg3 : g3.player_hands.get? (g.current_hand_index + 1) with
        | none => rw [hg3] at hcore; simp at hcore
        | some h0 =>
          rw [hg3] at hcore
          have hskip := advanceHand_skips _ _ hadv
            (by rw [hmlen] at *; show g.current_hand_index + 1 < g.player_hands.length + 1; omega)
            ({ hand := Hand.addCard ⟨[a2], true⟩ c2, bet := hs.bet, status := BJStatus.Stood,
               actions := { can_split := false, can_double := true, can_surrender := false } })
            (by exact hm1) (by simp)
          have hacts := hskip.1
          rw [hg3] at hacts
          refine ⟨c2, ?_⟩
          have h1 : handCore h0 = (Hand.addCard ⟨[a2], true⟩ c2, BJStatus.Stood, hs.bet) := by
            simpa [handCore] using hcore
          have h2 : h0.actions = noActions := by simpa using hacts
          have hcards0 : h0.hand.cards = [a2, c2] := by
            have := congrArg (fun t => t.1.cards) h1
            simpa [handCore, Hand.addCard] using this
          have hst0 : h0.status = BJStatus.Stood := by
            have := congrArg (fun t => t.2.1) h1
            simpa [handCore] using this
          simp [hcards0, hst0, h2]
      · have hskip := advanceHand_skips _ _ hadv
          (by show g.current_hand_index + 1 < _; rw [hmlen]; omega)
          ({ hand := Hand.addCard ⟨[a2], true⟩ c2, bet := hs.bet, status := BJStatus.Stood,
             actions := { can_split := false, can_double := true, can_surrender := false } })
          (by exact hm1) (by simp)
        exact hskip.2
      · have hcore := hinv.core g.current_hand_index
        rw [hm0] at hcore
        cases hg3 : g3.player_hands.get? g.current_hand_index with
        | none => rw [hg3] at hcore; simp at hcore
        | some h0 =>
          rw [hg3] at hcore
          have h1 : handCore h0 = (Hand.addCard ⟨[a1], true⟩ c1, BJStatus.Stood, hs.bet) := by
            simpa [handCore] using hcore
          have hst0 : h0.status = BJStatus.Stood := by
            have := congrArg (fun t => t.2.1) h1
            simpa [handCore] using this
          simp only [BlackjackGame.isCurrentTurn]
          simp
          intro _ _ x hx
          rw [← List.get?_eq_getElem?, hg3] at hx
          cases hx
          simp [hst0]
      · have hcore := hinv.core (g.current_hand_index + 1)
        rw [hm1] at hcore
        cases hg3 : g3.player_hands.get? (g.current_hand_index + 1) with
        | none => rw [hg3] at hcore; simp at hcore
        | some h0 =>
          rw [hg3] at hcore
          have h1 : handCore h0 = (Hand.addCard ⟨[a2], true⟩ c2, BJStatus.Stood, hs.bet) := by
            simpa [handCore] using hcore
          have hst0 : h0.status = BJStatus.Stood := by
            have := congrArg (fun t => t.2.1) h1
            simpa [handCore] using this
          simp only [BlackjackGame.isCurrentTurn]
          simp
          intro _ _ x hx
          rw [← List.get?_eq_getElem?, hg3] at hx
          cases hx
          simp [hst0]

/-- A round holding a pair of aces with the split offered, dealer (K, 9). -/
def gC9 : BlackjackGame :=
  { deck := ⟨⟨Rank.r3, Suit.H⟩ :: ⟨Rank.r4, Suit.D⟩ :: padCards 52⟩
    player_hands := [{ hand := ⟨[⟨Rank.rA, Suit.H⟩, ⟨Rank.rA, Suit.S⟩], false⟩, bet := 10,
                       status := BJStatus.Playing,
                       actions := { can_split := true, can_double := true, can_surrender := true } }]
    dealer_hand := ⟨[⟨Rank.rK, Suit.C⟩, ⟨Rank.r9, Suit.D⟩], false⟩
    current_hand_index := 0
    is_insurance_available := false
    insurance_bet := 0
    insurance_payout := 0
    initial_bet := 10 }

/-- `gC9` after the ace split: two forced-`Stood` two-card hands, the dealer
phase has run (dealer stands on 19) and both hands lost. -/
def gC9after : BlackjackGame :=
  { deck := ⟨padCards 52⟩
    player_hands :=
      [{ hand := ⟨[⟨Rank.rA, Suit.H⟩, ⟨Rank.r3, Suit.H⟩], true⟩, bet := 10,
         status := BJStatus.Stood, actions := noActions, payout := some (-10) },
       { hand := ⟨[⟨Rank.rA, Suit.S⟩, ⟨Rank.r4, Suit.D⟩], true⟩, bet := 10,
         status := BJStatus.Stood, actions := noActions, payout := some (-10) }]
    dealer_hand := ⟨[⟨Rank.rK, Suit.C⟩, ⟨Rank.r9, Suit.D⟩], false⟩
    current_hand_index := 2
    is_insurance_available := false
    insurance_bet := 0
    insurance_payout := 0
    initial_bet := 10 }

/-- Witness for `split_aces_rule` at the concrete game `gC9`. -/
theorem split_aces_rule_witness :
    BJMsg.splitMsg true = BJMsg.splitMsg true ∧
    gC9after.player_hands.length = gC9.player_hands.length + 1 ∧
    (∃ c1, (gC9after.player_hands.get? gC9.current_hand_index).map
      (fun h => (h.hand.cards, h.status, h.actions)) =
      some ([⟨Rank.rA, Suit.H⟩, c1], BJStatus.Stood, noActions)) ∧
    (∃ c2, (gC9after.player_hands.get? (gC9.current_hand_index + 1)).map
      (fun h => (h.hand.cards, h.status, h.actions)) =
      some ([⟨Rank.rA, Suit.S⟩, c2], BJStatus.Stood, noActions)) ∧
    gC9.current_hand_index + 1 < gC9after.current_hand_index ∧
    gC9after.isCurrentTurn gC9.current_hand_index = false ∧
    gC9after.isCurrentTurn (gC9.current_hand_index + 1) = false := by
  have hsplitW : gC9.split = some (gC9after, BJMsg.splitMsg true) := by
    simp +decide [gC9, gC9after, BlackjackGame.split, listModify, listInsertAfter,
      Deck.deal, padCards, advanceHand, bumpIndex, checkAvailableActions,
      checkActionsFor, dealerTurnGame, resolveInsurance, dealerTurn, dealerDraws,
      resolveGame, resolvePayout, Hand.addCard, Hand.value, Hand.soft,
      calculateValue, rawTotal, numAces, adjustAces, Card.value, Rank.pts,
      Hand.isBusted, Hand.isBlackjack, noActions]
  exact split_aces_rule gC9 gC9after
    { hand := ⟨[⟨Rank.rA, Suit.H⟩, ⟨Rank.rA, Suit.S⟩], false⟩, bet := 10,
      status := BJStatus.Playing,
      actions := { can_split := true, can_double := true, can_surrender := true } }
    ⟨Rank.rA, Suit.H⟩ ⟨Rank.rA, Suit.S⟩ (BJMsg.splitMsg true)
    rfl rfl rfl rfl rfl hsplitW

-- ============================================================
-- database.py / main.py: users, house, pending challenges
-- ============================================================

/-- The game emoji (Telegram dice emojis 🎲 🎯 🏀 ⚽ 🎳 in the source;
modelled as tokens — the code only ever compares them for equality or
membership in the ⚽/🏀 hit-scoring pair). -/
inductive Emoji where
  | dice | darts | basketball | soccer | bowling
  deriving DecidableEq, Repr

/-- The base game of a challenge (`dice`, `darts`, ...). -/
inductive GameKind where
  | dice | darts | basketball | soccer | bowling
  deriving DecidableEq, Repr

/-- A challenge's `type` string, e.g. `"dice_bot"`, `"darts"` (open PvP) or
`"dice_bot_v2"`; only its base game (for the `startswith("soccer")`
normalization) and bot/pvp flavour are ever inspected. -/
structure GType where
  kind : GameKind
  isBot : Bool
  deriving DecidableEq, Repr

/-- `game_type.startswith("soccer")`. -/
def GType.isSoccer (t : GType) : Bool := t.kind = GameKind.soccer

/-- Challenge-id prefix classes. Python ids are strings such as
`"dice_bot_<uid>_<ts>"`, `"<game>_open_<uid>_<ts>"`, `"v2_bot_..."`,
`"v2_pvp_..."`; the code inspects them only through
`startswith("v2_bot_")` / `startswith("v2_pvp_")`, modelled by `kind`;
`tag` keeps distinct ids distinct. -/
inductive CidKind where
  | legacy | v2Bot | v2Pvp
  deriving DecidableEq, Repr

structure Cid where
  kind : CidKind
  tag : Nat
  deriving DecidableEq, Repr

/-- The win/loss/draw result strings of main.py. -/
inductive GameResult where
  | win | loss | draw
  deriving DecidableEq, Repr

/-- The `mode` of a generic v2 challenge (`"normal"` or the inverted
low-wins mode). -/
inductive V2Mode where
  | normal | low
  deriving DecidableEq, Repr

/-- Transaction labels (the Python code builds strings like
`f"{game_type}"`, `f"{game_type}_pvp_win"`; modelled as tags). -/
inductive TxKind where
  | game (t : GType)
  | pvpWin (t : GType)
  | pvpLoss (t : GType)
  deriving DecidableEq, Repr

/-- One user record of `database.py` (`get_user` defaults), restricted to
the fields the embedded functions read or write. `username`, achievement
and bonus bookkeeping fields are presentation-only and elided. The
`transactions` list is the append-only per-user log of `add_transaction`
(label and signed amount; description/timestamp are presentation-only). -/
structure UserData where
  user_id : Nat
  balance : Rat
  total_wagered : Rat
  wagered_since_last_withdrawal : Rat
  total_pnl : Rat
  games_played : Nat
  games_won : Nat
  win_streak : Nat
  best_win_streak : Nat
  first_wager_date : Option Rat
  referral_code : Option Nat
  referred_by : Option Nat
  referral_earnings : Rat
  unclaimed_referral_earnings : Rat
  transactions : List (TxKind × Rat)
  deriving DecidableEq, Repr

/-- The defaults `get_user` writes for a new user: balance 1000, all
counters zero, no referral links. -/
def defaultUser (uid : Nat) : UserData where
  user_id := uid
  balance := 1000
  total_wagered := 0
  wagered_since_last_withdrawal := 0
  total_pnl := 0
  games_played := 0
  games_won := 0
  win_streak := 0
  best_win_streak := 0
  first_wager_date := none
  referral_code := none
  referred_by := none
  referral_earnings := 0
  unclaimed_referral_earnings := 0
  transactions := []

/-- One entry of `self.pending_pvp`. The union of the dict shapes the
creation sites build (legacy bot games, legacy open/accepted PvP
challenges, and the generic v2 series); absent keys are `none` / the
neutral default, matching Python's falsy `.get` reads. -/
structure Challenge where
  ctype : GType := ⟨GameKind.dice, true⟩
  player : Option Nat := none
  challenger : Option Nat := none
  opponent : Option Nat := none
  bot_roll : Option Nat := none
  challenger_roll : Option Nat := none
  wager : Rat := 0
  emoji : Emoji := Emoji.dice
  chat_id : Option Nat := none
  waiting_for_emoji : Bool := false
  waiting_for_challenger_emoji : Bool := false
  created_at : Option Rat := none
  emoji_wait_started : Option Rat := none
  rolls : Nat := 0
  mode : V2Mode := V2Mode.normal
  pts : Nat := 0
  p_pts : Nat := 0
  b_pts : Nat := 0
  p_rolls : List Nat := []
  cur_rolls : Nat := 0
  emoji_wait : Option Rat := none
  p1_pts : Nat := 0
  p2_pts : Nat := 0
  p1_rolls : List Nat := []
  p2_rolls : List Nat := []
  waiting_p1 : Bool := false
  waiting_p2 : Bool := false
  deriving DecidableEq, Repr

/-- The bot's persistent state (`database.py` `self.data`): the user map,
the pending-challenge map and the house balance. `games_recorded` counts
`record_game` appends (the recorded payloads are audit-only). Maps are
association lists in insertion order, as Python dicts are. -/
structure DB where
  users : List (Nat × UserData) := []
  pending_pvp : List (Cid × Challenge) := []
  house_balance : Rat := 6973
  games_recorded : Nat := 0
  deriving DecidableEq, Repr

def lookupUser : List (Nat × UserData) → Nat → Option UserData
  | [], _ => none
  | (k, u) :: rest, uid => if k = uid then some u else lookupUser rest uid

def setUser : List (Nat × UserData) → Nat → UserData → List (Nat × UserData)
  | [], uid, u => [(uid, u)]
  | (k, v) :: rest, uid, u => if k = uid then (uid, u) :: rest else (k, v) :: setUser rest uid u

/-- `DatabaseManager.get_user`: return the record, creating the default
record on first reference (the returned `DB` carries the insertion). -/
def DB.get_user (db : DB) (uid : Nat) : UserData × DB :=
  match lookupUser db.users uid with
  | some u => (u, db)
  | none => (defaultUser uid, { db with users := db.users ++ [(uid, defaultUser uid)] })

/-- `DatabaseManager.update_user`: `get_user` (creating if needed), then
merge the updates. Every embedded call site passes a full updated copy of
the record it fetched, so the merge is a replacement. -/
def DB.update_user (db : DB) (uid : Nat) (u : UserData) : DB :=
  let db2 := (db.get_user uid).2
  { db2 with users := setUser db2.users uid u }

/-- `DatabaseManager.add_transaction`: append to the user's log. -/
def DB.add_transaction (db : DB) (uid : Nat) (kind : TxKind) (amount : Rat) : DB :=
  let p := db.get_user uid
  (p.2).update_user uid
    { p.1 with transactions := p.1.transactions ++ [(kind, amount)] }

/-- `DatabaseManager.record_game` (payload elided: it carries no monetary
state). -/
def DB.record_game (db : DB) : DB := { db with games_recorded := db.games_recorded + 1 }

/-- `DatabaseManager.update_house_balance`. -/
def DB.update_house_balance (db : DB) (amount : Rat) : DB :=
  { db with house_balance := db.house_balance + amount }

/-- `CasinoBot._update_user_stats` (main.py 2051-2082): adds the profit to
the balance (on top of whatever the caller already credited), bumps the
wager/streak counters, stamps the first wager date, and pays the referrer
a 1% commission into the referral-earnings fields (the float literal
`0.01` is modelled as the rational 1/100). -/
def updateUserStats (db : DB) (uid : Nat) (wager profit : Rat) (result : GameResult)
    (now : Rat) : DB :=
  let p := db.get_user uid
  let u := p.1
  let db := p.2
  let u : UserData :=
    { u with
      balance := u.balance + profit
      games_played := u.games_played + 1
      total_wagered := u.total_wagered + wager
      wagered_since_last_withdrawal := u.wagered_since_last_withdrawal + wager
      total_pnl := u.total_pnl + profit }
  let u : UserData :=
    if result = GameResult.win then
      { u with
        games_won := u.games_won + 1
        win_streak := u.win_streak + 1
        best_win_streak := max u.best_win_streak (u.win_streak + 1) }
    else if result = GameResult.loss then { u with win_streak := 0 }
    else u
  let u : UserData :=
    if u.first_wager_date = none then { u with first_wager_date := some now } else u
  let db := db.update_user uid u
  match u.referred_by with
  | none => db
  | some code =>
    match (db.users.map Prod.snd).find? (fun r => r.referral_code = some code) with
    | none => db
    | some rdata =>
      db.update_user rdata.user_id
        { rdata with
          referral_earnings := rdata.referral_earnings + wager * (1 / 100)
          unclaimed_referral_earnings :=
            rdata.unclaimed_referral_earnings + wager * (1 / 100) }

/-- `del self.pending_pvp[challenge_id]`. -/
def erasePending (l : List (Cid × Challenge)) (cid : Cid) : List (Cid × Challenge) :=
  l.filter (fun e => e.1 ≠ cid)

/-- The ⚽/🏀 hit normalization (`1 if v >= 4 else 0`, all else raw). -/
def emojiScore (e : Emoji) (v : Nat) : Nat :=
  if e = Emoji.soccer ∨ e = Emoji.basketball then (if 4 ≤ v then 1 else 0) else v

/-- The soccer roll normalization applied at settlement
(`1 if roll >= 4 else 0` when `game_type.startswith("soccer")`). -/
def soccerNorm (t : GType) (v : Nat) : Nat :=
  if t.isSoccer then (if 4 ≤ v then 1 else 0) else v

/-- `CasinoBot.resolve_bot_vs_player_game` (main.py 2677-2742): remove the
pending game; on a player win credit `wager * 2` AND call
`_update_user_stats` with profit `wager` (which adds the profit to the
balance a second time) and move `-wager` from the house; on a loss move
`wager` to the house and call `_update_user_stats` with `-wager` (which
deducts the already-escrowed stake a second time); on a draw refund the
stake; always log one transaction with the nominal profit and record the
game. `challenge['player']` / `['bot_roll']` are present on every bot
challenge (a missing key would be a Python `KeyError`), read with `getD`. -/
def resolve_bot_vs_player_game (db : DB) (challenge : Challenge) (challenge_id : Cid)
    (player_roll : Nat) (now : Rat) : DB :=
  let user_id := challenge.player.getD 0
  let bot_roll := challenge.bot_roll.getD 0
  let wager := challenge.wager
  let game_type := challenge.ctype
  let p := db.get_user user_id
  let user_data := p.1
  let db := p.2
  let db : DB := { db with pending_pvp := erasePending db.pending_pvp challenge_id }
  let p_val := soccerNorm game_type player_roll
  let b_val := soccerNorm game_type bot_roll
  if b_val < p_val then
    let db := db.update_user user_id
      { user_data with balance := user_data.balance + wager * 2 }
    let db := db.update_house_balance (-wager)
    let db := updateUserStats db user_id wager wager GameResult.win now
    let db := db.add_transaction user_id (TxKind.game game_type) wager
    db.record_game
  else if p_val < b_val then
    let db := db.update_house_balance wager
    let db := updateUserStats db user_id wager (-wager) GameResult.loss now
    let db := db.add_transaction user_id (TxKind.game game_type) (-wager)
    db.record_game
  else
    let db := db.update_user user_id
      { user_data with balance := user_data.balance + wager }
    let db := db.add_transaction user_id (TxKind.game game_type) 0
    db.record_game

/-- The legacy PvP settlement block of `handle_emoji_response`
(main.py 2596-2665), parameterized by the acceptor's dice value. The source
reads it from the never-assigned variable `roll_value` (the dice value is
bound to `val`), so at runtime this block raises `NameError` before
executing; this function models the block with `roll_value` bound to the
acceptor's value, i.e. what it would do. On a win the winner is credited
`wager * 2` AND `_update_user_stats` adds the `wager` profit once more,
while the loser's `_update_user_stats` deducts the already-escrowed stake
a second time. -/
def resolve_pvp_settlement (db : DB) (challenge : Challenge) (cid : Cid)
    (user_id : Nat) (acceptor_roll : Nat) (now : Rat) : DB :=
  let game_type := challenge.ctype
  let wager := challenge.wager
  let challenger_id := challenge.challenger.getD 0
  let challenger_roll := challenge.challenger_roll.getD 0
  let p1 := db.get_user challenger_id
  let challenger_user := p1.1
  let db := p1.2
  let p2 := db.get_user user_id
  let acceptor_user := p2.1
  let db := p2.2
  let db : DB := { db with pending_pvp := erasePending db.pending_pvp cid }
  let c_val := soccerNorm game_type challenger_roll
  let a_val := soccerNorm game_type acceptor_roll
  if a_val < c_val then
    let winner_id := challenger_id
    let loser_id := user_id
    let p3 := db.get_user winner_id
    let winner_user := p3.1
    let db := p3.2
    let db := db.update_user winner_id
      { winner_user with balance := winner_user.balance + wager * 2 }
    let db := updateUserStats db winner_id wager wager GameResult.win now
    let db := updateUserStats db loser_id wager (-wager) GameResult.loss now
    let db := db.add_transaction winner_id (TxKind.pvpWin game_type) wager
    let db := db.add_transaction loser_id (TxKind.pvpLoss game_type) (-wager)
    db.record_game
  else if c_val < a_val then
    let winner_id := user_id
    let loser_id := challenger_id
    let p3 := db.get_user winner_id
    let winner_user := p3.1
    let db := p3.2
    let db := db.update_user winner_id
      { winner_user with balance := winner_user.balance + wager * 2 }
    let db := updateUserStats db winner_id wager wager GameResult.win now
    let db := updateUserStats db loser_id wager (-wager) GameResult.loss now
    let db := db.add_transaction winner_id (TxKind.pvpWin game_type) wager
    let db := db.add_transaction loser_id (TxKind.pvpLoss game_type) (-wager)
    db.record_game
  else
    let db := db.update_user challenger_id
      { challenger_user with balance := challenger_user.balance + wager }
    let db := db.update_user user_id
      { acceptor_user with balance := acceptor_user.balance + wager }
    let db := updateUserStats db challenger_id wager 0 GameResult.draw now
    let db := updateUserStats db user_id wager 0 GameResult.draw now
    db.record_game

/-- In-place mutation of one pending entry (`challenge` dicts are shared
with `self.pending_pvp`). -/
def setPending (l : List (Cid × Challenge)) (cid : Cid) (c : Challenge) :
    List (Cid × Challenge) :=
  l.map (fun e => if e.1 = cid then (cid, c) else e)

/-- Python exceptions the embedded handlers can raise. -/
inductive PyErr where
  | nameError
  deriving DecidableEq, Repr

/-- The generic-v2 bot branch of `handle_emoji_response` (main.py
2471-2518): record the roll; once the turn is complete, roll the bot
(`botVals` supplies the Telegram dice results), score the round, and on
series end settle: a player win credits `wager * 2`, moves `-wager` from
the house AND calls `_update_user_stats` with profit `wager`; a bot win
moves `wager` to the house and `_update_user_stats` deducts the stake a
second time. -/
def v2BotStep (db : DB) (cid : Cid) (c : Challenge) (uid : Nat) (e : Emoji)
    (score : Nat) (botVals : List Nat) (now : Rat) : DB :=
  let c1 : Challenge := { c with p_rolls := c.p_rolls ++ [score], cur_rolls := c.cur_rolls + 1 }
  if c1.cur_rolls < c1.rolls then
    { db with pending_pvp := setPending db.pending_pvp cid c1 }
  else
    let p_tot := (c1.p_rolls.drop (c1.p_rolls.length - c1.rolls)).sum
    let b_tot := ((botVals.take c1.rolls).map (emojiScore e)).sum
    let win : Option Bool :=
      match c1.mode with
      | V2Mode.normal =>
        if b_tot < p_tot then some true else if p_tot < b_tot then some false else none
      | V2Mode.low =>
        if p_tot < b_tot then some true else if b_tot < p_tot then some false else none
    let c2 : Challenge := { c1 with
      p_pts := c1.p_pts + (if win = some true then 1 else 0)
      b_pts := c1.b_pts + (if win = some false then 1 else 0)
      cur_rolls := 0
      emoji_wait := some now }
    if c2.pts ≤ c2.p_pts ∨ c2.pts ≤ c2.b_pts then
      let w := c2.wager
      if c2.pts ≤ c2.p_pts then
        let p := db.get_user uid
        let u := p.1
        let db := p.2
        let db := db.update_user uid { u with balance := u.balance + w * 2 }
        let db := db.update_house_balance (-w)
        let db := updateUserStats db uid w w GameResult.win now
        { db with pending_pvp := erasePending (setPending db.pending_pvp cid c2) cid }
      else
        let db := db.update_house_balance w
        let db := updateUserStats db uid w (-w) GameResult.loss now
        { db with pending_pvp := erasePending (setPending db.pending_pvp cid c2) cid }
    else
      { db with pending_pvp := setPending db.pending_pvp cid c2 }

/-- The v2 PvP challenger-roll branch (main.py 2522-2530). -/
def v2PvpP1Step (db : DB) (cid : Cid) (c : Challenge) (score : Nat) (now : Rat) : DB :=
  let c1 : Challenge := { c with p1_rolls := c.p1_rolls ++ [score] }
  let c2 : Challenge :=
    if c1.rolls ≤ c1.p1_rolls.length then { c1 with waiting_p1 := false, waiting_p2 := true }
    else c1
  { db with pending_pvp := setPending db.pending_pvp cid { c2 with emoji_wait := some now } }

/-- The v2 PvP opponent-roll branch (main.py 2531-2537). -/
def v2PvpP2Step (db : DB) (cid : Cid) (c : Challenge) (score : Nat) (now : Rat) : DB :=
  let c1 : Challenge := { c with p2_rolls := c.p2_rolls ++ [score] }
  let c2 : Challenge :=
    if c1.rolls ≤ c1.p2_rolls.length then { c1 with waiting_p2 := false } else c1
  { db with pending_pvp := setPending db.pending_pvp cid { c2 with emoji_wait := some now } }

/-- The first loop of `handle_emoji_response` (the generic-v2 branches,
main.py 2469-2537); `some` when a branch returned, `none` when the loop
completed without an early return. -/
def emojiLoop1 (db : DB) (uid : Nat) (e : Emoji) (score : Nat) (botVals : List Nat)
    (now : Rat) : List (Cid × Challenge) → Option DB
  | [] => none
  | (cid, c) :: rest =>
    if cid.kind = CidKind.v2Bot ∧ c.player = some uid ∧ c.emoji = e then
      some (v2BotStep db cid c uid e score botVals now)
    else if cid.kind = CidKind.v2Pvp ∧ c.emoji = e ∧ c.waiting_p1 = true ∧
        c.challenger = some uid then
      some (v2PvpP1Step db cid c score now)
    else if cid.kind = CidKind.v2Pvp ∧ c.emoji = e ∧ c.waiting_p2 = true ∧
        c.opponent = some uid then
      some (v2PvpP2Step db cid c score now)
    else emojiLoop1 db uid e score botVals now rest

/-- Match condition of the waiting-for-challenger branch (main.py 2545-2548). -/
def challengerWaitMatch (uid : Nat) (e : Emoji) (chat : Nat) (c : Challenge) : Bool :=
  c.waiting_for_challenger_emoji && c.emoji = e && c.chat_id = some chat &&
    c.challenger = some uid

/-- Match condition of the waiting-for-acceptor / bot-vs-player branch
(main.py 2570-2574). -/
def waitingEmojiMatch (uid : Nat) (e : Emoji) (chat : Nat) (c : Challenge) : Bool :=
  c.waiting_for_emoji && c.emoji = e && c.chat_id = some chat &&
    (c.opponent = some uid || c.player = some uid)

/-- The second loop of `handle_emoji_response` and the resolution code after
it (main.py 2541-2665). On a waiting-for-challenger match the handler
executes `challenge['challenger_roll'] = roll_value` (line 2557): the
right-hand side reads the variable `roll_value`, which is assigned nowhere
in the function or module (the dice value is bound to `val` at line 2461),
so Python raises `NameError` before any mutation. On a waiting-for-emoji
match the loop breaks and the resolution code reads `roll_value` as well
(lines 2592 and 2598), again raising before any mutation. -/
def emojiLoop2 (uid : Nat) (e : Emoji) (chat : Nat) : List (Cid × Challenge) → Option PyErr
  | [] => none
  | (_, c) :: rest =>
    if challengerWaitMatch uid e chat c then some PyErr.nameError
    else if waitingEmojiMatch uid e chat c then some PyErr.nameError
    else emojiLoop2 uid e chat rest

/-- `CasinoBot.handle_emoji_response` (main.py 2457-2675): the v2 loop,
then the legacy matching loop. Returns the database as it stands when the
handler returns or raises (every `NameError` raise point precedes any
mutation, so the input database is returned unchanged there), paired with
the raised exception if any. -/
def handle_emoji_response (db : DB) (uid : Nat) (e : Emoji) (val : Nat) (chat : Nat)
    (botVals : List Nat) (now : Rat) : DB × Option PyErr :=
  let score := emojiScore e val
  match emojiLoop1 db uid e score botVals now db.pending_pvp with
  | some db2 => (db2, none)
  | none =>
    match emojiLoop2 uid e chat db.pending_pvp with
    | some err => (db, some err)
    | none => (db, none)

/-- C2: for every accepted PvP challenge waiting for the challenger's
emoji, the challenger's move makes `handle_emoji_response` raise
`NameError` (it reads the unassigned `roll_value`, main.py 2557) with the
database — and hence the challenge — completely unchanged: the roll is
never recorded and the duel never advances, so only the 30-second sweep
can end it. -/
theorem challenger_emoji_raises_name_error (db : DB) (uid val chat : Nat) (e : Emoji)
    (botVals : List Nat) (now : Rat) (cid : Cid) (c : Challenge)
    (hp : db.pending_pvp = [(cid, c)])
    (hk : cid.kind = CidKind.legacy)
    (hm : challengerWaitMatch uid e chat c = true) :
    handle_emoji_response db uid e val chat botVals now = (db, some PyErr.nameError) := by
  simp [handle_emoji_response, hp, emojiLoop1, hk, emojiLoop2, hm]

/-- The accepted-duel challenge of the C2 witness (the shape
`accept_pvp_challenge` leaves in `pending_pvp`). -/
def cC2 : Challenge :=
  { ctype := ⟨GameKind.dice, false⟩
    challenger := some 1
    opponent := some 2
    wager := 10
    emoji := Emoji.dice
    chat_id := some 5
    waiting_for_challenger_emoji := true }

def dbC2 : DB := { pending_pvp := [(⟨CidKind.legacy, 0⟩, cC2)] }

theorem challenger_emoji_raises_name_error_witness :
    handle_emoji_response dbC2 1 Emoji.dice 4 5 [] 0 = (dbC2, some PyErr.nameError) :=
  challenger_emoji_raises_name_error dbC2 1 4 5 Emoji.dice [] 0 ⟨CidKind.legacy, 0⟩ cC2
    rfl rfl (by decide)

/-- One iteration of the `check_expired_challenges` loop (main.py
299-426): the updated database and whether the entry was appended to
`expired_challenges`. Branches in source order: the generic-v2 timeout
(which `continue`s, so legacy branches never see a v2 id and which only
refunds — the v2-bot player gets the stake back, a v2 PvP series refunds
the challenger and, if present, the opponent; nothing is forfeited), the
open-challenge refund, the challenger-emoji forfeit (stake to the house,
acceptor refunded) and the waiting-emoji forfeit (stake to the house,
challenger refunded in PvP, nothing refunded against the bot). Python's
truthiness tests on ids (`challenge.get('opponent')`) are modelled as
`Option` presence — Telegram ids are nonzero. -/
def sweepEntry (now : Rat) (db : DB) (cid : Cid) (c : Challenge) : DB × Bool :=
  let wager := c.wager
  if cid.kind = CidKind.v2Bot ∨ cid.kind = CidKind.v2Pvp then
    match c.emoji_wait with
    | none => (db, false)
    | some wait_started =>
      if 30 < now - wait_started then
        if cid.kind = CidKind.v2Bot then
          let pid := c.player.getD 0
          let p := db.get_user pid
          ((p.2).update_user pid { p.1 with balance := p.1.balance + wager }, true)
        else
          let p1 := c.challenger.getD 0
          let q := db.get_user p1
          let db2 := (q.2).update_user p1 { q.1 with balance := q.1.balance + wager }
          match c.opponent with
          | none => (db2, true)
          | some p2 =>
            let r := db2.get_user p2
            ((r.2).update_user p2 { r.1 with balance := r.1.balance + wager }, true)
      else (db, false)
  else if c.created_at.isSome ∧ c.opponent = none then
    match c.created_at with
    | none => (db, false)
    | some created_at =>
      if 30 < now - created_at then
        let challenger_id := c.challenger.getD 0
        let p := db.get_user challenger_id
        ((p.2).update_user challenger_id
          { p.1 with balance := p.1.balance + wager }, true)
      else (db, false)
  else if c.waiting_for_challenger_emoji = true ∧ c.emoji_wait_started.isSome then
    match c.emoji_wait_started with
    | none => (db, false)
    | some wait_started =>
      if 30 < now - wait_started then
        let challenger_id := c.challenger.getD 0
        let acceptor_id := c.opponent.getD 0
        let p := db.get_user challenger_id
        let db2 := p.2
        let q := db2.get_user acceptor_id
        let db3 := (q.2).update_house_balance wager
        (db3.update_user acceptor_id { q.1 with balance := q.1.balance + wager }, true)
      else (db, false)
  else if c.waiting_for_emoji = true ∧ c.emoji_wait_started.isSome then
    match c.emoji_wait_started with
    | none => (db, false)
    | some wait_started =>
      if 30 < now - wait_started then
        match c.opponent with
        | some opponent_id =>
          let challenger_id := c.challenger.getD 0
          let p := db.get_user challenger_id
          let db2 := p.2
          let q := db2.get_user opponent_id
          let db3 := (q.2).update_house_balance wager
          (db3.update_user challenger_id { p.1 with balance := p.1.balance + wager }, true)
        | none =>
          match c.player with
          | some player_id =>
            let p := db.get_user player_id
            ((p.2).update_house_balance wager, true)
          | none => (db, true)
      else (db, false)
  else (db, false)

/-- `CasinoBot.check_expired_challenges` (main.py 293-438): iterate over a
snapshot of `pending_pvp` applying `sweepEntry`, then delete the expired
ids. -/
def check_expired_challenges (now : Rat) (db : DB) : DB :=
  let r := db.pending_pvp.foldl
    (fun acc e =>
      let s := sweepEntry now acc.1 e.1 e.2
      (s.1, if s.2 then acc.2 ++ [e.1] else acc.2))
    (db, ([] : List Cid))
  { r.1 with pending_pvp := r.1.pending_pvp.filter (fun e => e.1 ∉ r.2) }

/-- Looking up a different user is unaffected by `setUser`. -/
theorem lookupUser_setUser_ne (l : List (Nat × UserData)) (a b : Nat) (u : UserData)
    (h : b ≠ a) : lookupUser (setUser l a u) b = lookupUser l b := by
  have hab : ¬ a = b := fun hc => h hc.symm
  induction l with
  | nil => simp [setUser, lookupUser, hab]
  | cons kv rest ih =>
    by_cases hk : kv.1 = a
    · simp [setUser, lookupUser, hk, hab]
    · simp [setUser, lookupUser, hk, ih]

/-- C6 (amended): on a pending challenge older than 30 seconds the sweep
removes it and settles as follows — an open legacy challenge refunds the
challenger and forfeits nothing; an accepted legacy challenge awaiting the
challenger's emoji forfeits the challenger's stake to the house and
refunds the acceptor; one awaiting the opponent's emoji forfeits the
opponent's stake to the house and refunds the challenger; a bot game
awaiting the player's emoji forfeits the player's stake to the house; but
— contrary to the claim — a generic v2 series that timed out awaiting a
move only REFUNDS: a v2 bot series returns the delinquent player's stake
with nothing forfeited to the house, and a v2 PvP series refunds the
challenger and (when present) the opponent, again with the house
untouched, regardless of whose move was awaited. -/
theorem timeout_sweep_characterization (db : DB) (now t : Rat) (cid : Cid) (c : Challenge)
    (hp : db.pending_pvp = [(cid, c)]) (hexp : 30 < now - t) :
    (cid.kind = CidKind.legacy → c.created_at = some t → c.opponent = none →
      ∀ ch u, c.challenger = some ch → lookupUser db.users ch = some u →
      check_expired_challenges now db =
        { db with
          users := setUser db.users ch { u with balance := u.balance + c.wager }
          pending_pvp := [] }) ∧
    (cid.kind = CidKind.legacy → c.waiting_for_challenger_emoji = true →
      c.emoji_wait_started = some t →
      ∀ uc uo u1 u2, c.challenger = some uc → c.opponent = some uo →
      lookupUser db.users uc = some u1 → lookupUser db.users uo = some u2 →
      check_expired_challenges now db =
        { db with
          users := setUser db.users uo { u2 with balance := u2.balance + c.wager }
          house_balance := db.house_balance + c.wager
          pending_pvp := [] }) ∧
    (cid.kind = CidKind.legacy → c.waiting_for_challenger_emoji = false →
      c.waiting_for_emoji = true → c.emoji_wait_started = some t →
      ∀ uc uo u1 u2, c.challenger = some uc → c.opponent = some uo →
      lookupUser db.users uc = some u1 → lookupUser db.users uo = some u2 →
      check_expired_challenges now db =
        { db with
          users := setUser db.users uc { u1 with balance := u1.balance + c.wager }
          house_balance := db.house_balance + c.wager
          pending_pvp := [] }) ∧
    (cid.kind = CidKind.legacy → c.created_at = none → c.opponent = none →
      c.waiting_for_challenger_emoji = false → c.waiting_for_emoji = true →
      c.emoji_wait_started = some t →
      ∀ pid up, c.player = some pid → lookupUser db.users pid = some up →
      check_expired_challenges now db =
        { db with
          house_balance := db.house_balance + c.wager
          pending_pvp := [] }) ∧
    (cid.kind = CidKind.v2Bot → c.emoji_wait = some t →
      ∀ pid up, c.player = some pid → lookupUser db.users pid = some up →
      check_expired_challenges now db =
        { db with
          users := setUser db.users pid { up with balance := up.balance + c.wager }
          pending_pvp := [] }) ∧
    (cid.kind = CidKind.v2Pvp → c.emoji_wait = some t →
      ∀ uc uo u1 u2, c.challenger = some uc → c.opponent = some uo →
      lookupUser db.users uc = some u1 → lookupUser db.users uo = some u2 →
      uo ≠ uc →
      check_expired_challenges now db =
        { db with
          users := setUser (setUser db.users uc { u1 with balance := u1.balance + c.wager })
            uo { u2 with balance := u2.balance + c.wager }
          pending_pvp := [] }) ∧
    (cid.kind = CidKind.v2Pvp → c.emoji_wait = some t → c.opponent = none →
      ∀ uc u1, c.challenger = some uc → lookupUser db.users uc = some u1 →
      check_expired_challenges now db =
        { db with
          users := setUser db.users uc { u1 with balance := u1.balance + c.wager }
          pending_pvp := [] }) := by
  refine ⟨?_, ?_, ?_, ?_, ?_, ?_, ?_⟩
  · intro hk hca hop ch u hch hlook
    simp [check_expired_challenges, hp, sweepEntry, hk, hca, hop, hch, hexp,
      DB.get_user, DB.update_user, hlook]
  · intro hk hw hws uc uo u1 u2 hch hop hl1 hl2
    simp [check_expired_challenges, hp, sweepEntry, hk, hw, hws, hch, hop, hexp,
      DB.get_user, DB.update_user, DB.update_house_balance, hl1, hl2]
  · intro hk hw1 hw2 hws uc uo u1 u2 hch hop hl1 hl2
    simp [check_expired_challenges, hp, sweepEntry, hk, hw1, hw2, hws, hch, hop, hexp,
      DB.get_user, DB.update_user, DB.update_house_balance, hl1, hl2]
  · intro hk hca hop hw1 hw2 hws pid up hpl hlook
    simp [check_expired_challenges, hp, sweepEntry, hk, hca, hop, hw1, hw2, hws, hpl, hexp,
      DB.get_user, DB.update_house_balance, hlook]
  · intro hk hew pid up hpl hlook
    simp [check_expired_challenges, hp, sweepEntry, hk, hew, hpl, hexp,
      DB.get_user, DB.update_user, hlook]
  · intro hk hew uc uo u1 u2 hch hop hl1 hl2 hne
    simp [check_expired_challenges, hp, sweepEntry, hk, hew, hch, hop, hexp,
      DB.get_user, DB.update_user, hl1, hl2, lookupUser_setUser_ne _ _ _ _ hne]
  · intro hk hew hop uc u1 hch hl1
    simp [check_expired_challenges, hp, sweepEntry, hk, hew, hop, hch, hexp,
      DB.get_user, DB.update_user, hl1]

/-- The C6 counterexample data: a v2 bot series of wager 5 whose player
(user 1, balance 95 after the upfront escrow) has been awaited for 31
seconds. -/
def uC6 : UserData := { defaultUser 1 with balance := 95 }

def cC6 : Challenge :=
  { ctype := ⟨GameKind.dice, true⟩
    player := some 1
    wager := 5
    rolls := 3
    pts := 2
    emoji_wait := some 0
    chat_id := some 9 }

def dbC6 : DB := { users := [(1, uC6)], pending_pvp := [(⟨CidKind.v2Bot, 0⟩, cC6)] }

/-- C6 counterexample: the sweep at t = 31 removes the timed-out v2
series, but the delinquent player's stake is REFUNDED (balance 95 → 100)
and the house balance is unchanged — no forfeit to the house, contradicting
the claim that the delinquent side's stake is forfeited. -/
theorem v2_timeout_refunds_instead_of_forfeiting :
    (check_expired_challenges 31 dbC6).house_balance = dbC6.house_balance ∧
    lookupUser (check_expired_challenges 31 dbC6).users 1 =
      some { uC6 with balance := 100 } ∧
    (check_expired_challenges 31 dbC6).pending_pvp = [] := by
  norm_num [check_expired_challenges, sweepEntry, dbC6, cC6, uC6, defaultUser,
    DB.get_user, DB.update_user, DB.update_house_balance, lookupUser, setUser]

/-- The C6 witness data: an open legacy darts challenge of wager 7 by
user 3 (balance 993 after escrow), created at t = 0 and swept at t = 40. -/
def uC6w : UserData := { defaultUser 3 with balance := 993 }

def cC6w : Challenge :=
  { ctype := ⟨GameKind.darts, false⟩
    challenger := some 3
    wager := 7
    created_at := some 0
    chat_id := some 9 }

def dbC6w : DB := { users := [(3, uC6w)], pending_pvp := [(⟨CidKind.legacy, 5⟩, cC6w)] }

theorem timeout_sweep_characterization_witness :
    check_expired_challenges 40 dbC6w =
      { dbC6w with
        users := setUser dbC6w.users 3 { uC6w with balance := uC6w.balance + cC6w.wager }
        pending_pvp := [] } :=
  (timeout_sweep_characterization dbC6w 40 0 ⟨CidKind.legacy, 5⟩ cC6w rfl
    (by norm_num)).1 rfl rfl rfl 3 uC6w rfl rfl

/-- The C1 data: user 7 played a dice bot game of wager 10; the stake was
escrowed up front (balance 100 → 90), the pending game holds the bot's
roll 3 and the house holds 1000. -/
def uC1 : UserData := { defaultUser 7 with balance := 90 }

def cC1 : Challenge :=
  { ctype := ⟨GameKind.dice, true⟩
    player := some 7
    bot_roll := some 3
    wager := 10
    chat_id := some 9
    waiting_for_emoji := true
    emoji_wait_started := some 0 }

def dbC1 : DB :=
  { users := [(7, uC1)], pending_pvp := [(⟨CidKind.legacy, 1⟩, cC1)], house_balance := 1000 }

/-- C1 refutation: resolving the won bot game (player roll 5 beats bot
roll 3) leaves the player at 120 — a gross credit of +3w (the explicit
`wager * 2` plus `_update_user_stats` adding the `wager` profit again) —
while the house only pays −w (990): the claimed +2w gross / −w house
invariant fails and w = 10 is created from nothing
(120 + 990 = 1110 against the 90 + 10 + 1000 = 1100 held before). -/
theorem bot_win_breaks_money_conservation :
    (lookupUser (resolve_bot_vs_player_game dbC1 cC1 ⟨CidKind.legacy, 1⟩ 5 0).users 7).map
      UserData.balance = some 120 ∧
    (resolve_bot_vs_player_game dbC1 cC1 ⟨CidKind.legacy, 1⟩ 5 0).house_balance = 990 ∧
    (resolve_bot_vs_player_game dbC1 cC1 ⟨CidKind.legacy, 1⟩ 5 0).pending_pvp = [] ∧
    (120 : Rat) + 990 ≠ uC1.balance + cC1.wager + dbC1.house_balance := by
  simp +decide [resolve_bot_vs_player_game, dbC1, cC1, uC1, defaultUser, DB.get_user,
    DB.update_user, DB.update_house_balance, updateUserStats, DB.add_transaction,
    DB.record_game, erasePending, soccerNorm, GType.isSoccer, lookupUser, setUser]
  norm_num

/-- The C3 data: an accepted dice duel of stake 10 between challenger 1
and acceptor 2, both stakes escrowed (100 → 90 each), challenger rolled 4. -/
def uC3a : UserData := { defaultUser 1 with balance := 90 }

def uC3b : UserData := { defaultUser 2 with balance := 90 }

def cC3 : Challenge :=
  { ctype := ⟨GameKind.dice, false⟩
    challenger := some 1
    opponent := some 2
    challenger_roll := some 4
    wager := 10
    chat_id := some 9
    waiting_for_emoji := true
    emoji_wait_started := some 0 }

def dbC3 : DB :=
  { users := [(1, uC3a), (2, uC3b)]
    pending_pvp := [(⟨CidKind.legacy, 2⟩, cC3)]
    house_balance := 1000 }

/-- C3 refutation: settling the duel (challenger 4 vs acceptor 6) via the
code's settlement block leaves the challenger at 80 and the acceptor at
120 — net −20 / +20 against the pre-escrow 100s, not the claimed −10 /
+10: the winner is credited `wager * 2` and then `_update_user_stats`
adds the `wager` profit again while the loser's stats call deducts the
already-escrowed stake a second time. (At runtime even this block is
unreachable: `handle_emoji_response` raises `NameError` on `roll_value`
first.) -/
theorem pvp_settlement_double_pays :
    (lookupUser (resolve_pvp_settlement dbC3 cC3 ⟨CidKind.legacy, 2⟩ 2 6 0).users 1).map
      UserData.balance = some 80 ∧
    (lookupUser (resolve_pvp_settlement dbC3 cC3 ⟨CidKind.legacy, 2⟩ 2 6 0).users 2).map
      UserData.balance = some 120 ∧
    (resolve_pvp_settlement dbC3 cC3 ⟨CidKind.legacy, 2⟩ 2 6 0).house_balance = 1000 ∧
    (resolve_pvp_settlement dbC3 cC3 ⟨CidKind.legacy, 2⟩ 2 6 0).pending_pvp = [] ∧
    (80 : Rat) ≠ 100 - 10 ∧ (120 : Rat) ≠ 100 + 10 := by
  simp +decide [resolve_pvp_settlement, dbC3, cC3, uC3a, uC3b, defaultUser, DB.get_user,
    DB.update_user, DB.update_house_balance, updateUserStats, DB.add_transaction,
    DB.record_game, erasePending, soccerNorm, GType.isSoccer, lookupUser, setUser]
  norm_num
